import Mathlib

/-!
Verification development for the GrASP binding-site scoring core
(`multisite_metrics_quantile_test.py`).

Embedding conventions:
* Coordinates and probabilities are rationals (`ℚ`); a 3D point is `ℚ × ℚ × ℚ`.
* Every Euclidean distance in the source is `sqrt` of a sum of squares; since
  `sqrt` is strictly monotone and the source only compares, minimises and
  argmins distances, the embedding works with the *squared* distances
  throughout (`dist2`, `DCA_dist`).  Equality/argmin/min statements transfer
  verbatim along `sqrt`.
* NumPy's NaN is `Option.none`; metric vectors are `List (Option ℚ)`.
* NumPy exceptions (zero-size reductions, mismatched boolean masks,
  broadcasting failures, comparisons against `None`) are `Except.error` with
  the corresponding message.
* External library calls that the source merely orchestrates are abstracted
  as function parameters: scipy `ConvexHull`/`Delaunay`/`linprog`/
  `HalfspaceIntersection` live in a `GeomOracle`, and the sklearn/networkx
  clustering backends (`MeanShift`, `DBSCAN`, `AgglomerativeClustering`,
  `louvain_communities`) live in a `Backends` record.  All of the repository's
  own glue (thresholding, masks, ranking, matching, reductions) is embedded
  concretely.
-/

deriving instance DecidableEq for Except

namespace GrASP

/-- A 3D point with rational coordinates. -/
abbrev Point : Type := ℚ × ℚ × ℚ

/-- Squared Euclidean distance `np.sum((a-b)**2)` between two points. -/
def dist2 (a b : Point) : ℚ :=
  (a.1 - b.1) ^ 2 + (a.2.1 - b.2.1) ^ 2 + (a.2.2 - b.2.2) ^ 2

/-- `get_centroid(coords)`: the arithmetic mean `np.mean(coords, axis=0)`. -/
def get_centroid (coords : List Point) : Point :=
  (((coords.map (fun p => p.1)).sum) / (coords.length : ℚ),
   ((coords.map (fun p => p.2.1)).sum) / (coords.length : ℚ),
   ((coords.map (fun p => p.2.2)).sum) / (coords.length : ℚ))

/-- `center_of_mass(coords, masses)`: mass-weighted mean
`np.sum(coords*masses)/np.sum(masses)` (componentwise). -/
def center_of_mass (coords : List Point) (masses : List ℚ) : Point :=
  (((coords.zip masses).map (fun p => p.1.1 * p.2)).sum / masses.sum,
   ((coords.zip masses).map (fun p => p.1.2.1 * p.2)).sum / masses.sum,
   ((coords.zip masses).map (fun p => p.1.2.2 * p.2)).sum / masses.sum)

/-- Total minimum of a rational list (used where the source guarantees the
array is nonempty); `0` on the empty list. -/
def minD : List ℚ → ℚ
  | [] => 0
  | x :: xs => xs.foldl min x

/-- Error message of NumPy's reduction over an empty axis. -/
def zeroSizeErr : String :=
  "ValueError: zero-size array to reduction operation minimum which has no identity"

/-- `np.min` over one row: fails on an empty row exactly as NumPy does. -/
def npmin : List ℚ → Except String ℚ
  | [] => .error zeroSizeErr
  | x :: xs => .ok (xs.foldl min x)

/-- `np.min(matrix, axis=1)`: row-wise minimum, erroring on a zero-width row. -/
def npMinRows : List (List ℚ) → Except String (List ℚ)
  | [] => .ok []
  | r :: rs =>
    match npmin r with
    | .error e => .error e
    | .ok m =>
      match npMinRows rs with
      | .error e => .error e
      | .ok ms => .ok (m :: ms)

/-- `np.argmin` over one row: index of the first occurrence of the minimum. -/
def argminD (l : List ℚ) : ℕ := l.indexOf (minD l)

/-- `DCA_dist(center, lig_coords)`: the (squared) distance from `center` to the
closest ligand heavy atom. -/
def DCA_dist (center : Point) (lig_coords : List Point) : ℚ :=
  minD (lig_coords.map (fun a => dist2 center a))

/-- Error message of a NumPy boolean mask whose length does not match. -/
def maskErr : String :=
  "IndexError: boolean index did not match indexed array along dimension 0"

/-- NumPy boolean-mask selection `xs[mask]`: defined only when the mask length
matches the array length, exactly as NumPy enforces. -/
def maskSel {α : Type} (xs : List α) (mask : List Bool) : Except String (List α) :=
  if xs.length = mask.length then
    .ok ((mask.zip xs).filterMap (fun p => if p.1 then some p.2 else none))
  else .error maskErr

/-- Number of `true` entries of a boolean mask (`np.sum(mask)`). -/
def countTrue (mask : List Bool) : ℕ := mask.countP (fun b => b)

/-- `xs[ids == c]` when `xs` and `ids` are aligned: the elements of `xs` at the
positions where `ids` equals `c`. -/
def selectWhere {α : Type} (xs : List α) (ids : List ℤ) (c : ℤ) : List α :=
  ((ids.zip xs).filter (fun p => p.1 = c)).map (fun p => p.2)

/-- A half-space inequality row `[normal | offset]` of a scipy hull. -/
abbrev HalfspaceRow : Type := Point × ℚ

/-- A scipy `ConvexHull` as far as the scoring core consumes it: its input
points, its facet `equations` rows, and its `volume`. -/
structure Hull where
  points : List Point
  equations : List HalfspaceRow
  volume : ℚ
deriving DecidableEq, Inhabited

/-- The external geometry routines the source calls but does not implement:
scipy's hull construction, the Delaunay-based `hull_center` decomposition, the
`linprog`-backed `cheb_center`, and the `HalfspaceIntersection`+`ConvexHull`
volume of the intersection polytope seeded at a given interior point. -/
structure GeomOracle where
  mkHull : List Point → Hull
  hullCenter : Hull → Point
  chebCenter : List HalfspaceRow → Point × ℚ
  interVolume : List HalfspaceRow → Point → ℚ

/-- `hull_jaccard(hull1, hull2, intersect_hull)` with the intersection hull
reduced to its volume: `intersect_vol / (v1 + v2 - intersect_vol)`. -/
def hull_jaccard (hull1 hull2 : Hull) (intersect_vol : ℚ) : ℚ :=
  intersect_vol / (hull1.volume + hull2.volume - intersect_vol)

/-- `volumetric_overlap(hull1, hull2)`: stack both equation blocks, take the
Chebyshev center of the combined system, return `0` when the radius is at or
below the `1e-5` floor, and otherwise the Jaccard overlap of the half-space
intersection polytope seeded at that center. -/
def volumetric_overlap (O : GeomOracle) (hull1 hull2 : Hull) : ℚ :=
  let halfspaces := hull1.equations ++ hull2.equations
  let cr := O.chebCenter halfspaces
  if cr.2 ≤ 1 / 100000 then 0
  else hull_jaccard hull1 hull2 (O.interVolume halfspaces cr.1)

/-- Dataset-level success rate `np.mean(np.concatenate(metric_array) < 4)`:
NaN compares false, so NaN entries count in the denominator only.  NumPy's
mean of an empty array is NaN (`none`). -/
def np_lt4_mean (c : List (Option ℚ)) : Option ℚ :=
  if c = [] then none
  else some (((c.countP (fun v => match v with
      | some q => decide (q < 4)
      | none => false) : ℕ) : ℚ) / (c.length : ℚ))

/-- `np.nanmean`: mean of the non-NaN entries, NaN (`none`) when there are
none. -/
def nanmean (c : List (Option ℚ)) : Option ℚ :=
  let vals := c.filterMap id
  if vals = [] then none else some (vals.sum / (vals.length : ℚ))

/-- `extract_multi(metric_array)`: concatenate the per-structure metric arrays
and return `(success_rate, mean)`. -/
def extract_multi (metric_array : List (List (Option ℚ))) : Option ℚ × Option ℚ :=
  (np_lt4_mean metric_array.flatten, nanmean metric_array.flatten)

/-- `np.unique` over an integer label vector: the distinct values in ascending
order. -/
def uniqueInts (l : List ℤ) : List ℤ := l.toFinset.sort (fun a b => a ≤ b)

/-- `np.unique` over node indices (dictionary keys, ascending). -/
def uniqueNats (l : List ℕ) : List ℕ := l.toFinset.sort (fun a b => a ≤ b)

/-- Comparison of positions by their values, the ordering `np.argsort` sorts
by. -/
def argRel (v : ℕ → ℚ) : ℕ → ℕ → Prop := fun i j => v i ≤ v j

instance (v : ℕ → ℚ) : DecidableRel (argRel v) :=
  fun i j => inferInstanceAs (Decidable (v i ≤ v j))

instance (v : ℕ → ℚ) : IsTotal ℕ (argRel v) := ⟨fun i j => le_total (v i) (v j)⟩

instance (v : ℕ → ℚ) : IsTrans ℕ (argRel v) := ⟨fun _ _ _ => le_trans⟩

/-- `np.argsort(c_probs)`: the positions `0..k-1` sorted so that the scores
read off along the result are ascending. -/
def argsortQ (l : List ℚ) : List ℕ :=
  List.insertionSort (argRel (fun i => l.getD i 0)) (List.range l.length)

/-- The relabelling loop of `sort_clusters`: starting from `-1*np.ones`, for
each new label `new_c` in order assign `sorted_ids[cluster_ids == c_order[new_c]]
= new_c`. -/
def applyRelabel (c_order : List ℕ) (cluster_ids : List ℤ) : List ℤ :=
  c_order.enum.foldl
    (fun acc p =>
      List.zipWith (fun a c => if c = (p.2 : ℤ) then (p.1 : ℤ) else a) acc cluster_ids)
    (cluster_ids.map (fun _ => (-1 : ℤ)))

/-- The aggregate confidence of one cluster under a `score_type` (the source
prints a message and leaves the score unbound on any other string; claims only
use the three valid values). -/
def aggScore (score_type : String) (ps : List ℚ) : ℚ :=
  if score_type = "mean" then ps.sum / (ps.length : ℚ)
  else if score_type = "sum" then ps.sum
  else if score_type = "square" then (ps.map (fun q => q * q)).sum
  else 0

/-- One iteration of the `sort_clusters` scoring loop:
`probs[:,1][labels][cluster_ids == c_id]` aggregated by `score_type`.  Both
boolean masks are NumPy masks and fail on length mismatch. -/
def aggOne (cluster_ids : List ℤ) (probs : List (ℚ × ℚ)) (labels : List Bool)
    (score_type : String) (c_id : ℤ) : Except String ℚ :=
  match maskSel (probs.map (fun p => p.2)) labels with
  | .error e => .error e
  | .ok colSel =>
    match maskSel colSel (cluster_ids.map (fun x => decide (x = c_id))) with
    | .error e => .error e
    | .ok sel => .ok (aggScore score_type sel)

/-- The `sort_clusters` scoring loop over a list of cluster ids. -/
def aggMany (cluster_ids : List ℤ) (probs : List (ℚ × ℚ)) (labels : List Bool)
    (score_type : String) : List ℤ → Except String (List ℚ)
  | [] => .ok []
  | c :: cs =>
    match aggOne cluster_ids probs labels score_type c with
    | .error e => .error e
    | .ok q =>
      match aggMany cluster_ids probs labels score_type cs with
      | .error e => .error e
      | .ok qs => .ok (q :: qs)

/-- The `c_probs` list of `sort_clusters`: one aggregate score per distinct
non-negative cluster id, in ascending id order. -/
def clusterAggScores (cluster_ids : List ℤ) (probs : List (ℚ × ℚ))
    (labels : List Bool) (score_type : String) : Except String (List ℚ) :=
  aggMany cluster_ids probs labels score_type
    ((uniqueInts cluster_ids).filter (fun c => 0 ≤ c))

/-- `sort_clusters(cluster_ids, probs, labels, score_type)`: score each
non-noise cluster, argsort the scores ascending, and relabel so that the new
label is the rank in that ascending order; unmatched positions keep `-1`. -/
def sort_clusters (cluster_ids : List ℤ) (probs : List (ℚ × ℚ))
    (labels : List Bool) (score_type : String) : Except String (List ℤ) :=
  match clusterAggScores cluster_ids probs labels score_type with
  | .error e => .error e
  | .ok c_probs => .ok (applyRelabel (argsortQ c_probs) cluster_ids)

/-- Error message of a NumPy masked assignment with the wrong number of
values. -/
def assignErr : String :=
  "ValueError: NumPy boolean array indexing assignment cannot assign values"

/-- `all_ids[mask] = vals` applied to `-1*np.ones(mask.shape)`: positions where
the mask is true take the values in order, the rest stay `-1`. -/
def assignGo : List Bool → List ℤ → List ℤ
  | [], _ => []
  | b :: ms, vs =>
    if b then vs.headD (-1) :: assignGo ms vs.tail else (-1) :: assignGo ms vs

/-- `all_ids = -1*np.ones(...); all_ids[mask] = vals`: NumPy requires exactly
one value per true mask position. -/
def assignAtMask (mask : List Bool) (vals : List ℤ) : Except String (List ℤ) :=
  if countTrue mask = vals.length then .ok (assignGo mask vals) else .error assignErr

/-- Result of one clustering strategy: either the `(None, None, None)` "no
regions" sentinel or the triple `(bind_coords, sorted_ids, all_ids)`. -/
inductive ClusterResult : Type
  | noRegions : ClusterResult
  | clustered : List Point → List ℤ → List ℤ → ClusterResult
deriving DecidableEq

/-- The external clustering backends.  Each returns the raw integer labels the
corresponding library call (`MeanShift(...).fit(bind_coords).labels_` etc.)
produces on the candidate coordinates; bandwidth estimation/clamping, `eps`,
`min_samples`, linkage parameters and the adjacency-graph edge pruning all
live inside the abstracted call.  The Louvain backend maps the kept node list
(the graph after `remove_nodes_from`) to its list of communities. -/
structure Backends where
  meanshift : List Point → List ℤ
  dbscan : List Point → List ℤ
  linkage : List Point → List ℤ
  louvain : List ℕ → List (List ℕ)

/-- `cluster_atoms(all_coords, predicted_probs, ...)` (mean-shift strategy):
empty candidate set returns the sentinel; a single candidate becomes the one
cluster `[0]`; otherwise the backend labels are ranked by `sort_clusters`. -/
def cluster_atoms (msLabels : List Point → List ℤ) (all_coords : List Point)
    (predicted_probs : List (ℚ × ℚ)) (threshold : ℚ) (score_type : String) :
    Except String ClusterResult :=
  let predicted_labels := predicted_probs.map (fun p => decide (p.2 > threshold))
  if countTrue predicted_labels = 0 then .ok .noRegions
  else
    match maskSel all_coords predicted_labels with
    | .error e => .error e
    | .ok bind_coords =>
      if bind_coords.length ≠ 1 then
        match sort_clusters (msLabels bind_coords) predicted_probs predicted_labels
            score_type with
        | .error e => .error e
        | .ok sorted_ids =>
          match assignAtMask predicted_labels sorted_ids with
          | .error e => .error e
          | .ok all_ids => .ok (.clustered bind_coords sorted_ids all_ids)
      else
        match assignAtMask predicted_labels [0] with
        | .error e => .error e
        | .ok all_ids => .ok (.clustered bind_coords [0] all_ids)

/-- `cluster_atoms_DBSCAN`: identical structure with the DBSCAN backend. -/
def cluster_atoms_DBSCAN (dbLabels : List Point → List ℤ) (all_coords : List Point)
    (predicted_probs : List (ℚ × ℚ)) (threshold : ℚ) (score_type : String) :
    Except String ClusterResult :=
  let predicted_labels := predicted_probs.map (fun p => decide (p.2 > threshold))
  if countTrue predicted_labels = 0 then .ok .noRegions
  else
    match maskSel all_coords predicted_labels with
    | .error e => .error e
    | .ok bind_coords =>
      if bind_coords.length ≠ 1 then
        match sort_clusters (dbLabels bind_coords) predicted_probs predicted_labels
            score_type with
        | .error e => .error e
        | .ok sorted_ids =>
          match assignAtMask predicted_labels sorted_ids with
          | .error e => .error e
          | .ok all_ids => .ok (.clustered bind_coords sorted_ids all_ids)
      else
        match assignAtMask predicted_labels [0] with
        | .error e => .error e
        | .ok all_ids => .ok (.clustered bind_coords [0] all_ids)

/-- `cluster_atoms_linkage`: identical structure with the agglomerative
single-linkage backend. -/
def cluster_atoms_linkage (lkLabels : List Point → List ℤ) (all_coords : List Point)
    (predicted_probs : List (ℚ × ℚ)) (threshold : ℚ) (score_type : String) :
    Except String ClusterResult :=
  let predicted_labels := predicted_probs.map (fun p => decide (p.2 > threshold))
  if countTrue predicted_labels = 0 then .ok .noRegions
  else
    match maskSel all_coords predicted_labels with
    | .error e => .error e
    | .ok bind_coords =>
      if bind_coords.length ≠ 1 then
        match sort_clusters (lkLabels bind_coords) predicted_probs predicted_labels
            score_type with
        | .error e => .error e
        | .ok sorted_ids =>
          match assignAtMask predicted_labels sorted_ids with
          | .error e => .error e
          | .ok all_ids => .ok (.clustered bind_coords sorted_ids all_ids)
      else
        match assignAtMask predicted_labels [0] with
        | .error e => .error e
        | .ok all_ids => .ok (.clustered bind_coords [0] all_ids)

/-- The nodes kept by `G.remove_nodes_from([n for n if probability < threshold])`:
all atom indices whose positive-class probability is NOT below the threshold
(note: atoms exactly at the threshold are kept although they are not
candidates). -/
def keptNodes (predicted_probs : List (ℚ × ℚ)) (threshold : ℚ) : List ℕ :=
  (List.range predicted_probs.length).filter
    (fun i => ¬ ((predicted_probs.getD i (0, 0)).2 < threshold))

/-- The `assignment_dict` writes: `for i, ids in enumerate(communities): for id
in ids: assignment_dict[id] = i`, as an association list in write order. -/
def assignmentPairs (communities : List (List ℕ)) : List (ℕ × ℕ) :=
  communities.enum.flatMap (fun ic => ic.2.map (fun id => (id, ic.1)))

/-- Dictionary lookup: the last write wins. -/
def dictGet (ps : List (ℕ × ℕ)) (k : ℕ) : ℕ :=
  match (ps.filter (fun p => p.1 = k)).getLast? with
  | some p => p.2
  | none => 0

/-- `cluster_ids = np.array([assignment_dict[k] for k in
sorted(assignment_dict.keys())])`. -/
def louvainClusterIds (communities : List (List ℕ)) : List ℤ :=
  (uniqueNats ((assignmentPairs communities).map (fun p => p.1))).map
    (fun k => (dictGet (assignmentPairs communities) k : ℤ))

/-- `cluster_atoms_louvain`: NO empty-candidate early return.  The graph keeps
every node whose probability is not strictly below the threshold, the
abstracted `louvain_communities` partitions the kept nodes, and the resulting
labels go through the same ranking and assignment as the other strategies.
The adjacency matrix and the distance cutoff only shape the abstracted
community call. -/
def cluster_atoms_louvain (lvCommunities : List ℕ → List (List ℕ))
    (all_coords : List Point) (predicted_probs : List (ℚ × ℚ)) (threshold : ℚ)
    (score_type : String) : Except String ClusterResult :=
  let predicted_labels := predicted_probs.map (fun p => decide (p.2 > threshold))
  let kept := keptNodes predicted_probs threshold
  match maskSel all_coords predicted_labels with
  | .error e => .error e
  | .ok bind_coords =>
    let cluster_ids := louvainClusterIds (lvCommunities kept)
    match sort_clusters cluster_ids predicted_probs predicted_labels score_type with
    | .error e => .error e
    | .ok sorted_ids =>
      match assignAtMask predicted_labels sorted_ids with
      | .error e => .error e
      | .ok all_ids => .ok (.clustered bind_coords sorted_ids all_ids)

/-- `np.unique(sorted_ids)[::-1][:n_sites+top_n_plus]`: the distinct labels,
largest first, truncated to the number of regions to keep. -/
def topIds (sorted_ids : List ℤ) (n : ℕ) : List ℤ :=
  ((uniqueInts sorted_ids).reverse).take n

/-- `hulls_from_clusters(bind_coords, sorted_ids, n_sites, top_n_plus)`:
for each selected non-noise label build the member point list; a region with
fewer than 4 points gets the arithmetic-mean centroid and NO hull (`None`),
otherwise the scipy hull and its Delaunay centroid.  When the clustering
returned the `(None, None, None)` sentinel, `np.unique(None)` yields the
single element `None` which the `c_id is not None` guard skips, so all three
lists are empty. -/
def hulls_from_clusters (O : GeomOracle) (bind_coords : Option (List Point))
    (sorted_ids : Option (List ℤ)) (n_sites top_n_plus : ℕ) :
    List (List Point) × List (Option Hull) × List Point :=
  match bind_coords, sorted_ids with
  | some bind, some sorted =>
    let tids := (topIds sorted (n_sites + top_n_plus)).filter (fun c => 0 ≤ c)
    let pts := tids.map (fun c => selectWhere bind sorted c)
    (pts,
     pts.map (fun p => if p.length < 4 then none else some (O.mkHull p)),
     pts.map (fun p => if p.length < 4 then get_centroid p else O.hullCenter (O.mkHull p)))
  | _, _ => ([], [], [])

/-- The per-region weight vector of `center_of_probability`: the member
probabilities, squared in `square` mode. -/
def weightsOf (ctype : String) (qs : List ℚ) : List ℚ :=
  if ctype = "square" then qs.map (fun q => q * q) else qs

/-- `probs[:,1][labels]`: the positive-class column restricted to the
candidate atoms (the successful value of the corresponding NumPy mask). -/
def candCol (probs : List (ℚ × ℚ)) (labels : List Bool) : List ℚ :=
  (labels.zip (probs.map (fun p => p.2))).filterMap
    (fun p => if p.1 then some p.2 else none)

/-- The new label the relabelling loop of `sort_clusters` gives to an old
cluster value `x`: its position in `c_order` when `x` is a member, `-1`
otherwise. -/
def rankOf (c_order : List ℕ) (x : ℤ) : ℤ :=
  if 0 ≤ x ∧ x.toNat ∈ c_order then (c_order.indexOf x.toNat : ℤ) else -1

/-- The loop body of `center_of_probability`: for each selected label take the
member points `bind_coords[sorted_ids == c_id]` and the member probabilities
`bind_probs[:,1][sorted_ids == c_id]` (a NumPy mask that fails when
`bind_probs` is shorter than `sorted_ids`), square them in `square` mode, and
take the probability-weighted center of mass. -/
def copLoop (bind_coords : List Point) (bind_probs : List (ℚ × ℚ))
    (sorted_ids : List ℤ) (ctype : String) : List ℤ → Except String (List Point)
  | [] => .ok []
  | c :: cs =>
    match maskSel bind_coords (sorted_ids.map (fun s => decide (s = c))) with
    | .error e => .error e
    | .ok predicted_points =>
      match maskSel (bind_probs.map (fun p => p.2))
          (sorted_ids.map (fun s => decide (s = c))) with
      | .error e => .error e
      | .ok cluster_probs =>
        let cluster_probs := weightsOf ctype cluster_probs
        match copLoop bind_coords bind_probs sorted_ids ctype cs with
        | .error e => .error e
        | .ok rest => .ok (center_of_mass predicted_points cluster_probs :: rest)

/-- `center_of_probability(bind_coords, bind_probs, sorted_ids, n_sites,
top_n_plus, type)`: probability-weighted centers of the selected regions. -/
def center_of_probability (bind_coords : List Point) (bind_probs : List (ℚ × ℚ))
    (sorted_ids : List ℤ) (n_sites top_n_plus : ℕ) (ctype : String) :
    Except String (List Point) :=
  copLoop bind_coords bind_probs sorted_ids ctype
    ((topIds sorted_ids (n_sites + top_n_plus)).filter (fun c => 0 ≤ c))

/-- The overlap loop of `multisite_metrics`: for each `(true_ind, pred_ind)`
in `site_pairs`, Jaccard overlap when the matched predicted hull exists and
NaN when it is absent.  (The `elif true_hull is None` branch of the source can
never fire: every entry of `true_hull_list` is a constructed `ConvexHull`.) -/
def volumetric_overlaps_of (O : GeomOracle) (true_hull_list : List Hull)
    (predicted_hull_list : List (Option Hull)) (closest_predictions : List ℕ) :
    List (Option ℚ) :=
  (true_hull_list.zip closest_predictions).map (fun p =>
    match predicted_hull_list.getD p.2 none with
    | some predicted_hull => some (volumetric_overlap O predicted_hull p.1)
    | none => none)

/-- Split a `ClusterResult` into the `(bind_coords, sorted_ids, all_ids)`
triple, each `None` for the sentinel. -/
def resParts : ClusterResult → Option (List Point) × Option (List ℤ) × Option (List ℤ)
  | .noRegions => (none, none, none)
  | .clustered b s a => (some b, some s, some a)

/-- The five outputs of `multisite_metrics` for one structure. -/
structure MetricsOut where
  DCC_lig : List (Option ℚ)
  DCC_site : List (Option ℚ)
  DCA : List (Option ℚ)
  volumetric_overlaps : List (Option ℚ)
  n_predicted : Option ℕ
deriving DecidableEq

/-- The all-NaN outcome of `multisite_metrics` when no region survives. -/
def nanMetrics (n_sites : ℕ) : MetricsOut :=
  ⟨List.replicate n_sites none, List.replicate n_sites none,
   List.replicate n_sites none, List.replicate n_sites none, none⟩

/-- The strategy dispatch at the head of `multisite_metrics` (an unknown
method leaves `bind_coords` unbound in the source, surfacing later as an
`UnboundLocalError`; modelled as an immediate error). -/
def clusterDispatch (B : Backends) (method : String) (prot_coords : List Point)
    (predicted_probs : List (ℚ × ℚ)) (threshold : ℚ) (score_type : String) :
    Except String ClusterResult :=
  if method = "meanshift" then
    cluster_atoms B.meanshift prot_coords predicted_probs threshold score_type
  else if method = "dbscan" then
    cluster_atoms_DBSCAN B.dbscan prot_coords predicted_probs threshold score_type
  else if method = "louvain" then
    cluster_atoms_louvain B.louvain prot_coords predicted_probs threshold score_type
  else if method = "linkage" then
    cluster_atoms_linkage B.linkage prot_coords predicted_probs threshold score_type
  else .error "UnboundLocalError: local variable referenced before assignment"

/-- The predicted-center selection of `multisite_metrics`: the hull-mode
centers from `hulls_from_clusters`, or in probability mode the
`center_of_probability` centers fed with `predicted_probs[all_ids > -1]`
(which compares `None > -1` and raises when clustering returned the
sentinel). -/
def predicted_centers (O : GeomOracle) (res : ClusterResult)
    (predicted_probs : List (ℚ × ℚ)) (n_sites top_n_plus : ℕ)
    (centroid_type : String) : Except String (List Point) :=
  if centroid_type ≠ "hull" then
    match (resParts res).2.2 with
    | none => .error "TypeError: comparison not supported between instances of NoneType and int"
    | some all_ids =>
      match maskSel predicted_probs (all_ids.map (fun x => decide (-1 < x))) with
      | .error e => .error e
      | .ok bind_probs =>
        center_of_probability ((resParts res).1.getD []) bind_probs
          ((resParts res).2.1.getD []) n_sites top_n_plus centroid_type
  else
    .ok (hulls_from_clusters O (resParts res).1 (resParts res).2.1
      n_sites top_n_plus).2.2

/-- The centers feeding `DCC_lig`/`DCA`: the full-atom predicted centers, or
the surface re-clustering centers when a surface mask was supplied. -/
def contact_centers (O : GeomOracle) (surfRes : Option ClusterResult)
    (n_sites top_n_plus : ℕ) (predicted_center_list : List Point) : List Point :=
  match surfRes with
  | none => predicted_center_list
  | some sr =>
    (hulls_from_clusters O (resParts sr).1 (resParts sr).2.1 n_sites top_n_plus).2.2

/-- `n_predicted = np.sum(np.unique(sorted_ids) > -1)` (`0` for the
sentinel). -/
def n_predicted_of (sortedOpt : Option (List ℤ)) : ℕ :=
  match sortedOpt with
  | none => 0
  | some s => ((uniqueInts s).filter (fun c => -1 < c)).length

/-- Everything `multisite_metrics` does after clustering: true hulls/centers,
selected predicted regions, optional probability-weighted centers, the three
distance matrices (squared distances), the per-row argmin matching, the
`np.min(axis=1)` reductions (which raise on a zero-width matrix, in the same
order as the source: `DCC_lig`, then `DCC_site`, then `DCA`), the matched
overlaps, and the all-NaN fallback when no predicted center was selected.
With a surface result present, `DCC_site` uses the full-atom centers while
`DCC_lig`/`DCA` use the surface centers. -/
def multisite_post (O : GeomOracle) (res : ClusterResult)
    (surfRes : Option ClusterResult) (lig_coord_list : List (List Point))
    (ligand_mass_list : List (List ℚ)) (predicted_probs : List (ℚ × ℚ))
    (site_coords_list : List (List Point)) (top_n_plus : ℕ)
    (centroid_type : String) : Except String MetricsOut :=
  match predicted_centers O res predicted_probs site_coords_list.length top_n_plus
      centroid_type with
  | .error e => .error e
  | .ok predicted_center_list =>
    if predicted_center_list.length ≠ 0 then
      match npMinRows ((List.range site_coords_list.length).map (fun ti =>
          (contact_centers O surfRes site_coords_list.length top_n_plus
            predicted_center_list).map
            (fun c => dist2 c ((List.zipWith center_of_mass lig_coord_list
              ligand_mass_list).getD ti (0, 0, 0))))) with
      | .error e => .error e
      | .ok dlig =>
        match npMinRows (((site_coords_list.map O.mkHull).map O.hullCenter).map
            (fun tc => predicted_center_list.map (fun pc => dist2 pc tc))) with
        | .error e => .error e
        | .ok dsite =>
          match npMinRows ((List.range site_coords_list.length).map (fun ti =>
              (contact_centers O surfRes site_coords_list.length top_n_plus
                predicted_center_list).map
                (fun c => DCA_dist c (lig_coord_list.getD ti [])))) with
          | .error e => .error e
          | .ok dca =>
            .ok ⟨dlig.map some, dsite.map some, dca.map some,
              volumetric_overlaps_of O (site_coords_list.map O.mkHull)
                (hulls_from_clusters O (resParts res).1 (resParts res).2.1
                  site_coords_list.length top_n_plus).2.1
                ((((site_coords_list.map O.mkHull).map O.hullCenter).map
                  (fun tc => predicted_center_list.map (fun pc => dist2 pc tc))).map
                  argminD),
              some (n_predicted_of (resParts res).2.1)⟩
    else .ok (nanMetrics site_coords_list.length)

/-- `multisite_metrics(...)`: dispatch the chosen clustering strategy on the
full structure, optionally re-cluster the surface-masked subset, then score. -/
def multisite_metrics (B : Backends) (O : GeomOracle) (prot_coords : List Point)
    (lig_coord_list : List (List Point)) (ligand_mass_list : List (List ℚ))
    (predicted_probs : List (ℚ × ℚ)) (site_coords_list : List (List Point))
    (top_n_plus : ℕ) (threshold : ℚ) (method score_type centroid_type : String)
    (surf_mask : Option (List Bool)) : Except String MetricsOut :=
  match clusterDispatch B method prot_coords predicted_probs threshold score_type with
  | .error e => .error e
  | .ok res =>
    match surf_mask with
    | none =>
      multisite_post O res none lig_coord_list ligand_mass_list predicted_probs
        site_coords_list top_n_plus centroid_type
    | some m =>
      match maskSel prot_coords m with
      | .error e => .error e
      | .ok surf_coords =>
        match maskSel predicted_probs m with
        | .error e => .error e
        | .ok surf_probs =>
          match clusterDispatch B method surf_coords surf_probs threshold score_type with
          | .error e => .error e
          | .ok sres =>
            multisite_post O res (some sres) lig_coord_list ligand_mass_list
              predicted_probs site_coords_list top_n_plus centroid_type

/-- Trivial backends (never invoked on the inputs they witness, or invoked on
empty graphs where `louvain_communities` returns no communities). -/
def B0 : Backends := ⟨fun _ => [], fun _ => [], fun _ => [], fun _ => []⟩

/-- Backends whose single-linkage call splits two far-apart candidate atoms
into two singleton clusters, as `AgglomerativeClustering(linkage='single',
distance_threshold=3)` does for points 6 apart. -/
def B1 : Backends := ⟨fun _ => [], fun _ => [], fun _ => [0, 1], fun _ => []⟩

/-- A Louvain backend that puts the whole kept node set into one community (a
legal partition of the graph nodes). -/
def BLouvainOne : Backends := ⟨fun _ => [], fun _ => [], fun _ => [], fun ks => [ks]⟩

/-- A matching boolean mask selects successfully. -/
theorem maskSel_ok {α : Type} (xs : List α) (mask : List Bool)
    (h : xs.length = mask.length) :
    maskSel xs mask =
      .ok ((mask.zip xs).filterMap (fun p => if p.1 then some p.2 else none)) := by
  unfold maskSel
  rw [if_pos h]

/-- A mismatched boolean mask raises. -/
theorem maskSel_err {α : Type} (xs : List α) (mask : List Bool)
    (h : xs.length ≠ mask.length) : maskSel xs mask = .error maskErr := by
  unfold maskSel
  rw [if_neg h]

/-- A matching mask selects one element per true position. -/
theorem maskZip_length {α : Type} :
    ∀ (mask : List Bool) (xs : List α), xs.length = mask.length →
      ((mask.zip xs).filterMap (fun p => if p.1 then some p.2 else none)).length =
        countTrue mask
  | [], [], _ => rfl
  | b :: ms, x :: xs, h => by
    have ih := maskZip_length ms xs (by simpa using h)
    unfold countTrue at ih ⊢
    cases b <;> simp [List.zip_cons_cons, List.countP_cons, ih]

/-- Selecting with the equality mask `ids == c` is `selectWhere`. -/
theorem maskSel_eq_selectWhere {α : Type} (xs : List α) (ids : List ℤ) (c : ℤ)
    (h : xs.length = ids.length) :
    maskSel xs (ids.map (fun s => decide (s = c))) = .ok (selectWhere xs ids c) := by
  rw [maskSel_ok xs _ (by simpa using h)]
  congr 1
  induction ids generalizing xs with
  | nil => cases xs <;> simp [selectWhere]
  | cons i is ih =>
    cases xs with
    | nil => simp at h
    | cons x xs =>
      have := ih xs (by simpa using h)
      by_cases hc : i = c <;>
        simp [selectWhere, List.zip_cons_cons, hc, List.filter_cons] at this ⊢ <;>
        simpa [selectWhere] using this

/-- The masked assignment writes one value per true position and keeps the
array length. -/
theorem assignGo_length : ∀ (mask : List Bool) (vals : List ℤ),
    (assignGo mask vals).length = mask.length
  | [], _ => rfl
  | b :: ms, vs => by
    cases b <;> simp [assignGo, assignGo_length ms]

/-- When every assigned value is non-negative, comparing the assigned array
against `-1` recovers exactly the original mask. -/
theorem assignGo_mask_recover : ∀ (mask : List Bool) (vals : List ℤ),
    countTrue mask = vals.length → (∀ v ∈ vals, 0 ≤ v) →
    (assignGo mask vals).map (fun x => decide (-1 < x)) = mask
  | [], _, _, _ => rfl
  | true :: ms, vs, hc, hv => by
    cases vs with
    | nil =>
      exfalso
      simp [countTrue, List.countP_cons] at hc
    | cons v vs =>
      have hc2 : countTrue ms = vs.length := by
        have h2 : countTrue ms + 1 = vs.length + 1 := by
          simpa [countTrue, List.countP_cons] using hc
        omega
      have hv0 : (-1 : ℤ) < v := by
        have := hv v (by simp)
        omega
      have ih := assignGo_mask_recover ms vs hc2 (fun w hw => hv w (by simp [hw]))
      simp [assignGo, ih, hv0]
  | false :: ms, vs, hc, hv => by
    have hc2 : countTrue ms = vs.length := by
      simpa [countTrue, List.countP_cons] using hc
    have ih := assignGo_mask_recover ms vs hc2 hv
    simp [assignGo, ih]

/-- Unfolding lemma for `volumetric_overlap` (shared by several proofs). -/
theorem volumetric_overlap_eval (O : GeomOracle) (hullA hullB : Hull) :
    volumetric_overlap O hullA hullB =
      if (O.chebCenter (hullA.equations ++ hullB.equations)).2 ≤ 1 / 100000 then 0
      else hull_jaccard hullA hullB
        (O.interVolume (hullA.equations ++ hullB.equations)
          (O.chebCenter (hullA.equations ++ hullB.equations)).1) := rfl

/-- Claim C4: `volumetric_overlap(A, B)` returns `0` whenever the Chebyshev
radius of the stacked half-space system is at or below the `1e-5` floor, and
otherwise returns the Jaccard overlap
`intersectVol / (volA + volB - intersectVol)` of the half-space intersection
polytope seeded at the Chebyshev center. -/
theorem volumetric_overlap_floor_or_jaccard (O : GeomOracle) (hullA hullB : Hull) :
    volumetric_overlap O hullA hullB =
      if (O.chebCenter (hullA.equations ++ hullB.equations)).2 ≤ 1 / 100000 then 0
      else
        (O.interVolume (hullA.equations ++ hullB.equations)
            (O.chebCenter (hullA.equations ++ hullB.equations)).1) /
          (hullA.volume + hullB.volume -
            O.interVolume (hullA.equations ++ hullB.equations)
              (O.chebCenter (hullA.equations ++ hullB.equations)).1) := rfl

/-- Claim C8: `volumetric_overlap` is symmetric.  The two calls stack the two
equation blocks in opposite orders, so symmetry holds exactly when the external
LP solver reports the same inscribed radius for the row-permuted system and the
external half-space intersection yields the same polytope volume — both true of
exact arithmetic, stated here as hypotheses on the oracle. -/
theorem volumetric_overlap_symm (O : GeomOracle) (hullA hullB : Hull)
    (hrad : (O.chebCenter (hullA.equations ++ hullB.equations)).2 =
      (O.chebCenter (hullB.equations ++ hullA.equations)).2)
    (hvol : O.interVolume (hullA.equations ++ hullB.equations)
        (O.chebCenter (hullA.equations ++ hullB.equations)).1 =
      O.interVolume (hullB.equations ++ hullA.equations)
        (O.chebCenter (hullB.equations ++ hullA.equations)).1) :
    volumetric_overlap O hullA hullB = volumetric_overlap O hullB hullA := by
  rw [volumetric_overlap_eval, volumetric_overlap_eval, ← hrad, ← hvol]
  by_cases h : (O.chebCenter (hullA.equations ++ hullB.equations)).2 ≤ 1 / 100000
  · rw [if_pos h, if_pos h]
  · rw [if_neg h, if_neg h]
    unfold hull_jaccard
    ring_nf

/-- A degenerate but well-formed oracle used to witness oracle-conditional
theorems: `linprog` reports radius `0`, so every overlap is `0`. -/
def O0 : GeomOracle where
  mkHull := fun ps => ⟨ps, [], 0⟩
  hullCenter := fun h => get_centroid h.points
  chebCenter := fun _ => (((0 : ℚ), (0 : ℚ), (0 : ℚ)), 0)
  interVolume := fun _ _ => 0

/-- Witness for C8 at concrete hulls and a concrete oracle. -/
theorem volumetric_overlap_symm_witness :
    volumetric_overlap O0 ⟨[((0 : ℚ), 0, 0)], [], 2⟩ ⟨[((1 : ℚ), 0, 0)], [], 3⟩ =
      volumetric_overlap O0 ⟨[((1 : ℚ), 0, 0)], [], 3⟩ ⟨[((0 : ℚ), 0, 0)], [], 2⟩ :=
  volumetric_overlap_symm O0 ⟨[((0 : ℚ), 0, 0)], [], 2⟩ ⟨[((1 : ℚ), 0, 0)], [], 3⟩
    rfl rfl

/-- Claim C7: the reported success rate of a metric is the fraction of all
(structure, true-site) pairs strictly below 4, with NaN pairs in the
denominator but never counted as successes, and the reported mean is the
NaN-aware average over the non-NaN entries. -/
theorem extract_multi_spec (metric_array : List (List (Option ℚ)))
    (hne : metric_array.flatten ≠ []) :
    (extract_multi metric_array).1 =
      some ((((metric_array.flatten.filter (fun v => match v with
          | some q => decide (q < 4)
          | none => false)).length : ℕ) : ℚ) / (metric_array.flatten.length : ℚ)) ∧
    (∀ v ∈ metric_array.flatten, v = none →
      (match v with | some q => decide (q < 4) | none => false) = false) ∧
    (metric_array.flatten.filterMap id ≠ [] →
      (extract_multi metric_array).2 =
        some ((metric_array.flatten.filterMap id).sum /
          ((metric_array.flatten.filterMap id).length : ℚ))) ∧
    (metric_array.flatten.filterMap id = [] → (extract_multi metric_array).2 = none) := by
  refine ⟨?_, ?_, ?_, ?_⟩
  · unfold extract_multi np_lt4_mean
    rw [if_neg hne, List.countP_eq_length_filter]
  · intro v _ hv
    subst hv
    rfl
  · intro hvals
    unfold extract_multi nanmean
    rw [if_neg hvals]
  · intro hvals
    unfold extract_multi nanmean
    rw [hvals]
    rfl

/-- Witness for C7: two structures, three pairs, one of them NaN; success rate
1/3, NaN-aware mean 3. -/
theorem extract_multi_spec_witness :
    (extract_multi [[some 1, none], [some 5]]).1 = some ((1 : ℚ) / 3) ∧
    (extract_multi [[some 1, none], [some 5]]).2 = some (3 : ℚ) := by
  have h := extract_multi_spec [[some 1, none], [some 5]] (by decide)
  refine ⟨?_, ?_⟩
  · rw [h.1]
    norm_num
  · rw [h.2.2.1 (by decide)]
    norm_num [List.filterMap]

/-- Claim C6 (failing input): with a surface mask supplied, when the full-atom
clustering selects a predicted center (here the single candidate atom
`(0,0,0)`) but the surface-restricted re-clustering returns no regions, the
intended all-NaN fallback writes NaN into a zero-width `(n_true, 0)` matrix
and the subsequent `np.min(..., axis=1)` raises rather than reporting NaN
`DCC_lig`/`DCA`. -/
theorem surf_empty_reclustering_raises :
    multisite_metrics B0 O0 [(0, 0, 0), (6, 0, 0)] [[(9, 0, 0)]] [[1]]
      [(1/10, 9/10), (9/10, 1/10)] [[(0, 0, 0)]] 0 (1/2) "linkage" "mean" "hull"
      (some [false, true]) = .error zeroSizeErr := by with_unfolding_all decide

/-- Claim C1 (counterexample): `cluster_atoms_louvain` has no empty-candidate
early return.  On a structure whose single atom is below threshold it returns
`(empty bind_coords, empty sorted_ids, all-noise all_ids)` instead of the
`(None, None, None)` sentinel; moreover with a non-`hull` centroid mode an
empty candidate set does not even reach the all-NaN outcome for the strategies
that DO return the sentinel, because `predicted_probs[all_ids > -1]` compares
`None > -1` and raises. -/
theorem louvain_empty_candidates_not_sentinel :
    countTrue ([((1 : ℚ), (0 : ℚ))].map (fun p => decide (p.2 > (1/2 : ℚ)))) = 0 ∧
    cluster_atoms_louvain B0.louvain [(0, 0, 0)] [(1, 0)] (1/2) "mean" =
      .ok (.clustered [] [] [-1]) ∧
    .ok (.clustered [] [] [-1]) ≠ (Except.ok ClusterResult.noRegions : Except String ClusterResult) ∧
    multisite_metrics B0 O0 [(0, 0, 0)] [[(1, 1, 1)]] [[1]] [(1, 0)] [[(5, 5, 5)]]
      0 (1/2) "meanshift" "mean" "prob" none =
      .error "TypeError: comparison not supported between instances of NoneType and int" := by
  refine ⟨by with_unfolding_all decide, by with_unfolding_all decide, ?_,
    by with_unfolding_all decide⟩
  intro h
  have h2 := Except.ok.inj h
  exact absurd h2 (by decide)

/-- Claim C2 (counterexample): one true site whose hull center is `(1,0,0)`,
two selected predicted centroids `(0,0,0)` and `(6,0,0)`, one ligand heavy
atom at `(8,0,0)` (squared distances throughout).  The per-row argmin of the
center-distance matrix matches the site to centroid `(0,0,0)` (squared
center distance 1 vs 25), whose distance to the ligand is 64; but the code
reports `DCA = np.min(DCA_matrix, axis=1) = 4`, the minimum over ALL
predicted centroids, not the matched one. -/
theorem DCA_not_matched_centroid_cex :
    multisite_metrics B1 O0 [(0, 0, 0), (6, 0, 0)] [[(8, 0, 0)]] [[1]]
      [(1/10, 9/10), (1/5, 4/5)] [[(2, 1, 1), (2, -1, -1), (0, 1, -1), (0, -1, 1)]]
      1 (1/2) "linkage" "mean" "hull" none =
      .ok ⟨[some 4], [some 1], [some 4], [none], some 2⟩ ∧
    argminD [dist2 ((0 : ℚ), 0, 0) (1, 0, 0), dist2 ((6 : ℚ), 0, 0) (1, 0, 0)] = 0 ∧
    DCA_dist ((0 : ℚ), 0, 0) [((8 : ℚ), 0, 0)] = 64 ∧
    (some (4 : ℚ)) ≠ (some (64 : ℚ)) := by
  refine ⟨by with_unfolding_all decide, by with_unfolding_all decide,
    by with_unfolding_all decide, ?_⟩
  decide

/-- `getD` through a `map`, inside bounds. -/
theorem getD_map_lt {α β : Type} (f : α → β) (l : List α) (i : ℕ) (d : β) (d0 : α)
    (h : i < l.length) : (l.map f).getD i d = f (l.getD i d0) := by
  rw [List.getD_eq_getElem (l.map f) d (by simpa using h),
    List.getD_eq_getElem l d0 h, List.getElem_map]

/-- `getD` through a `zip`, inside bounds. -/
theorem getD_zip_lt {α β : Type} (l : List α) (m : List β) (i : ℕ) (d1 : α) (d2 : β)
    (h1 : i < l.length) (h2 : i < m.length) :
    (l.zip m).getD i (d1, d2) = (l.getD i d1, m.getD i d2) := by
  rw [List.getD_eq_getElem (l.zip m) (d1, d2) (by simp [List.length_zip]; omega),
    List.getD_eq_getElem l d1 h1, List.getD_eq_getElem m d2 h2, List.getElem_zip]

/-- Claim C5: a selected predicted region with fewer than 4 atoms gets the
arithmetic-mean centroid and no hull, and when such a region is matched to a
true site its volumetric overlap is reported as NaN — never as `0`. -/
theorem small_region_mean_centroid_no_hull_nan_overlap
    (O : GeomOracle) (bind : List Point) (sorted : List ℤ)
    (n_sites top_n_plus k : ℕ)
    (hk : k < (hulls_from_clusters O (some bind) (some sorted) n_sites top_n_plus).1.length)
    (hsmall :
      ((hulls_from_clusters O (some bind) (some sorted) n_sites top_n_plus).1.getD k []).length < 4) :
    (hulls_from_clusters O (some bind) (some sorted) n_sites top_n_plus).2.1.getD k
      (some default) = none ∧
    (hulls_from_clusters O (some bind) (some sorted) n_sites top_n_plus).2.2.getD k default =
      get_centroid
        ((hulls_from_clusters O (some bind) (some sorted) n_sites top_n_plus).1.getD k []) ∧
    (∀ (thl : List Hull) (phl : List (Option Hull)) (closest : List ℕ) (i : ℕ),
      i < thl.length → closest.length = thl.length →
      phl.getD (closest.getD i 0) none = none →
      (volumetric_overlaps_of O thl phl closest).getD i (some 0) = none ∧
      (volumetric_overlaps_of O thl phl closest).getD i (some 0) ≠ some 0) := by
  have h21 : (hulls_from_clusters O (some bind) (some sorted) n_sites top_n_plus).2.1 =
      (hulls_from_clusters O (some bind) (some sorted) n_sites top_n_plus).1.map
        (fun p => if p.length < 4 then none else some (O.mkHull p)) := rfl
  have h22 : (hulls_from_clusters O (some bind) (some sorted) n_sites top_n_plus).2.2 =
      (hulls_from_clusters O (some bind) (some sorted) n_sites top_n_plus).1.map
        (fun p => if p.length < 4 then get_centroid p else O.hullCenter (O.mkHull p)) := rfl
  refine ⟨?_, ?_, ?_⟩
  · rw [h21, getD_map_lt _ _ _ _ [] hk, if_pos hsmall]
  · rw [h22, getD_map_lt _ _ _ _ [] hk, if_pos hsmall]
  · intro thl phl closest i hi hcl hnone
    have hiz : i < (thl.zip closest).length := by
      simp [List.length_zip]
      omega
    have hvo : (volumetric_overlaps_of O thl phl closest).getD i (some 0) =
        (match phl.getD ((thl.zip closest).getD i (default, 0)).2 none with
          | some predicted_hull =>
            some (volumetric_overlap O predicted_hull
              ((thl.zip closest).getD i (default, 0)).1)
          | none => none) := by
      unfold volumetric_overlaps_of
      rw [getD_map_lt _ _ _ _ (default, 0) hiz]
    rw [getD_zip_lt thl closest i default 0 hi (by omega)] at hvo
    rw [hnone] at hvo
    exact ⟨hvo, by rw [hvo]; exact fun h => Option.noConfusion h⟩

/-- Witness for C5: a two-point region (fewer than 4 atoms) out of a
single-region clustering, matched to the single true site. -/
theorem small_region_witness :
    (hulls_from_clusters O0 (some [((0 : ℚ), 0, 0), ((2 : ℚ), 0, 0)]) (some [0, 0]) 1 0).2.1.getD 0
      (some default) = none ∧
    (hulls_from_clusters O0 (some [((0 : ℚ), 0, 0), ((2 : ℚ), 0, 0)]) (some [0, 0]) 1 0).2.2.getD 0
      default =
      get_centroid
        ((hulls_from_clusters O0 (some [((0 : ℚ), 0, 0), ((2 : ℚ), 0, 0)]) (some [0, 0]) 1 0).1.getD
          0 []) ∧
    (volumetric_overlaps_of O0 [⟨[], [], 1⟩] [none] [0]).getD 0 (some 0) = none := by
  have h := small_region_mean_centroid_no_hull_nan_overlap O0
    [((0 : ℚ), 0, 0), ((2 : ℚ), 0, 0)] [0, 0] 1 0 0
    (by with_unfolding_all decide) (by with_unfolding_all decide)
  exact ⟨h.1, h.2.1, (h.2.2 [⟨[], [], 1⟩] [none] [0] 0 (by decide) (by decide) rfl).1⟩

/-- The probability-weighted center loop succeeds and computes the
mass-weighted centers once the member masks line up. -/
theorem copLoop_ok (bind : List Point) (bp : List (ℚ × ℚ)) (sorted : List ℤ)
    (ct : String) (hb : bind.length = sorted.length) (hp : bp.length = sorted.length) :
    ∀ cs : List ℤ, copLoop bind bp sorted ct cs =
      .ok (cs.map (fun c => center_of_mass (selectWhere bind sorted c)
        (weightsOf ct (selectWhere (bp.map (fun p => p.2)) sorted c))))
  | [] => rfl
  | c :: cs => by
    have h1 := maskSel_eq_selectWhere bind sorted c hb
    have h2 := maskSel_eq_selectWhere (bp.map (fun p => p.2)) sorted c (by simpa using hp)
    have ih := copLoop_ok bind bp sorted ct hb hp cs
    simp [copLoop, h1, h2, ih]

/-- Claim C10: in probability-weighted centroid mode, when the clustering
assigned no noise label to any above-threshold atom, the mask
`all_ids > -1` recovers exactly the candidate mask, so
`predicted_probs[all_ids > -1]` has the same length as `sorted_ids`, the
indexing inside `center_of_probability` is in bounds, and each returned
center is the member-probability-weighted center of mass of its region
(squared weights in `square` mode). -/
theorem center_of_probability_inbounds
    (labels : List Bool) (probs : List (ℚ × ℚ)) (bind_coords : List Point)
    (sorted_ids : List ℤ) (n_sites top_n_plus : ℕ) (ctype : String)
    (hpl : probs.length = labels.length)
    (hcnt : countTrue labels = sorted_ids.length)
    (hb : bind_coords.length = sorted_ids.length)
    (hnn : ∀ v ∈ sorted_ids, 0 ≤ v) :
    ∃ bind_probs,
      assignAtMask labels sorted_ids = .ok (assignGo labels sorted_ids) ∧
      maskSel probs ((assignGo labels sorted_ids).map (fun x => decide (-1 < x))) =
        .ok bind_probs ∧
      bind_probs.length = sorted_ids.length ∧
      center_of_probability bind_coords bind_probs sorted_ids n_sites top_n_plus ctype =
        .ok (((topIds sorted_ids (n_sites + top_n_plus)).filter (fun c => 0 ≤ c)).map
          (fun c => center_of_mass (selectWhere bind_coords sorted_ids c)
            (weightsOf ctype (selectWhere (bind_probs.map (fun p => p.2)) sorted_ids c)))) := by
  have hm : (∀ v ∈ sorted_ids, 0 ≤ v) →
      (assignGo labels sorted_ids).map (fun x => decide (-1 < x)) = labels :=
    fun h => assignGo_mask_recover labels sorted_ids hcnt h
  refine ⟨(labels.zip probs).filterMap (fun p => if p.1 then some p.2 else none),
    ?_, ?_, ?_, ?_⟩
  · unfold assignAtMask
    rw [if_pos hcnt]
  · rw [hm hnn]
    exact maskSel_ok probs labels hpl
  · rw [maskZip_length labels probs hpl]
    exact hcnt
  · exact copLoop_ok bind_coords _ sorted_ids ctype hb
      (by rw [maskZip_length labels probs hpl]; exact hcnt) _

/-- Witness for C10: two candidate atoms, both clustered (no noise), ranks
`[1, 0]`. -/
theorem center_of_probability_inbounds_witness :
    ∃ bind_probs,
      assignAtMask [true, true] [1, 0] = .ok (assignGo [true, true] [1, 0]) ∧
      maskSel [((1 : ℚ)/2, (1 : ℚ)/2), ((1 : ℚ)/4, (3 : ℚ)/4)]
        ((assignGo [true, true] [1, 0]).map (fun x => decide (-1 < x))) = .ok bind_probs ∧
      bind_probs.length = ([1, 0] : List ℤ).length ∧
      center_of_probability [((0 : ℚ), 0, 0), ((2 : ℚ), 0, 0)] bind_probs [1, 0] 1 1 "prob" =
        .ok (((topIds [1, 0] (1 + 1)).filter (fun c => 0 ≤ c)).map
          (fun c => center_of_mass (selectWhere [((0 : ℚ), 0, 0), ((2 : ℚ), 0, 0)] [1, 0] c)
            (weightsOf "prob" (selectWhere (bind_probs.map (fun p => p.2)) [1, 0] c)))) := by
  have h := center_of_probability_inbounds [true, true]
    [((1 : ℚ)/2, (1 : ℚ)/2), ((1 : ℚ)/4, (3 : ℚ)/4)] [((0 : ℚ), 0, 0), ((2 : ℚ), 0, 0)]
    [1, 0] 1 1 "prob" (by decide) (by decide) (by decide) (by decide)
  simpa using h

/-- Counting over indices equals counting over elements. -/
theorem length_filter_range_getD {α : Type} (l : List α) (d : α) (p : α → Bool) :
    ((List.range l.length).filter (fun i => p (l.getD i d))).length = l.countP p := by
  induction l with
  | nil => rfl
  | cons x xs ih =>
    have hcomp : ((fun i => p ((x :: xs).getD i d)) ∘ Nat.succ) = fun i => p (xs.getD i d) := by
      funext i
      simp [List.getD_cons_succ]
    rw [List.length_cons, List.range_succ_eq_map, List.filter_cons, List.getD_cons_zero,
      List.filter_map, hcomp, List.countP_cons]
    cases hp : p x
    · rw [if_neg (by simp [hp]), List.length_map, ih]
      simp
    · rw [if_pos (by simp [hp]), List.length_cons, List.length_map, ih]
      simp

/-- `np.sum` of a predicate mask counts the satisfying elements. -/
theorem countTrue_map {α : Type} (l : List α) (f : α → Bool) :
    countTrue (l.map f) = l.countP f := by
  unfold countTrue
  rw [List.countP_map]
  rfl

/-- Strict counting: a pointwise-weaker predicate with a strict witness counts
strictly fewer elements. -/
theorem countP_lt_countP {α : Type} (l : List α) (p q : α → Bool)
    (himp : ∀ a ∈ l, p a = true → q a = true)
    (hex : ∃ a ∈ l, q a = true ∧ p a = false) :
    l.countP p < l.countP q := by
  induction l with
  | nil => simp at hex
  | cons x xs ih =>
    rw [List.countP_cons, List.countP_cons]
    obtain ⟨a, ha, hqa, hpa⟩ := hex
    have himp2 : ∀ b ∈ xs, p b = true → q b = true :=
      fun b hb => himp b (List.mem_cons_of_mem _ hb)
    rcases List.mem_cons.mp ha with h1 | hmem
    · subst h1
      have hle : xs.countP p ≤ xs.countP q := List.countP_mono_left himp2
      rw [hpa, hqa, if_neg (by simp), if_pos rfl]
      omega
    · have hlt : xs.countP p < xs.countP q := ih himp2 ⟨a, hmem, hqa, hpa⟩
      have hq : (if p x = true then (1 : ℕ) else 0) ≤ (if q x = true then (1 : ℕ) else 0) := by
        by_cases hpx : p x = true
        · rw [if_pos hpx, if_pos (himp x (List.mem_cons_self x xs) hpx)]
        · rw [if_neg hpx]
          exact Nat.zero_le _
      omega

/-- Two strictly sorted lists with the same members are equal. -/
theorem sorted_lt_eq_of_mem_iff {α : Type} [LinearOrder α] {l₁ l₂ : List α}
    (s1 : List.Sorted (fun a b => a < b) l₁) (s2 : List.Sorted (fun a b => a < b) l₂)
    (h : ∀ x, x ∈ l₁ ↔ x ∈ l₂) : l₁ = l₂ := by
  have n1 : l₁.Nodup := s1.imp (fun hab => ne_of_lt hab)
  have n2 : l₂.Nodup := s2.imp (fun hab => ne_of_lt hab)
  exact List.eq_of_perm_of_sorted ((List.perm_ext_iff_of_nodup n1 n2).mpr h)
    (s1.imp (fun hab => le_of_lt hab)) (s2.imp (fun hab => le_of_lt hab))

/-- The keys written into `assignment_dict` are exactly the community
members. -/
theorem assignmentPairs_map_fst (com : List (List ℕ)) :
    (assignmentPairs com).map Prod.fst = com.flatten := by
  unfold assignmentPairs
  rw [List.map_flatMap]
  have h : (fun ic : ℕ × List ℕ => (ic.2.map (fun id => (id, ic.1))).map Prod.fst) =
      fun ic : ℕ × List ℕ => ic.2 := by
    funext ic
    rw [List.map_map]
    have hcmp : (Prod.fst ∘ fun id : ℕ => (id, ic.1)) = id := rfl
    rw [hcmp, List.map_id]
  rw [h, List.flatMap_def, List.enum_map_snd]

/-- Membership in `np.unique` (node version). -/
theorem uniqueNats_mem (l : List ℕ) (x : ℕ) : x ∈ uniqueNats l ↔ x ∈ l := by
  unfold uniqueNats
  rw [Finset.mem_sort]
  exact List.mem_toFinset

/-- Membership in `np.unique` (label version). -/
theorem uniqueInts_mem (l : List ℤ) (x : ℤ) : x ∈ uniqueInts l ↔ x ∈ l := by
  unfold uniqueInts
  rw [Finset.mem_sort]
  exact List.mem_toFinset

/-- `np.unique` output is strictly ascending (node version). -/
theorem uniqueNats_sorted (l : List ℕ) :
    List.Sorted (fun a b => a < b) (uniqueNats l) := Finset.sort_sorted_lt _

/-- `np.unique` output is strictly ascending (label version). -/
theorem uniqueInts_sorted (l : List ℤ) :
    List.Sorted (fun a b => a < b) (uniqueInts l) := Finset.sort_sorted_lt _

/-- The kept node list is strictly ascending. -/
theorem keptNodes_sorted (probs : List (ℚ × ℚ)) (t : ℚ) :
    List.Sorted (fun a b => a < b) (keptNodes probs t) :=
  (List.pairwise_lt_range _).filter _

/-- When the abstract Louvain call partitions exactly the kept nodes, the
sorted dictionary keys are exactly the kept node list. -/
theorem dictKeys_eq_kept (lv : List ℕ → List (List ℕ)) (probs : List (ℚ × ℚ)) (t : ℚ)
    (hpart : ∀ x, x ∈ (lv (keptNodes probs t)).flatten ↔ x ∈ keptNodes probs t) :
    uniqueNats ((assignmentPairs (lv (keptNodes probs t))).map Prod.fst) =
      keptNodes probs t := by
  apply sorted_lt_eq_of_mem_iff (uniqueNats_sorted _) (keptNodes_sorted probs t)
  intro x
  rw [uniqueNats_mem, assignmentPairs_map_fst]
  exact hpart x

/-- One scoring iteration succeeds when the masks line up. -/
theorem aggOne_ok (cluster_ids : List ℤ) (probs : List (ℚ × ℚ)) (labels : List Bool)
    (st : String) (c : ℤ) (hpl : probs.length = labels.length)
    (hcl : countTrue labels = cluster_ids.length) :
    aggOne cluster_ids probs labels st c =
      .ok (aggScore st (selectWhere (candCol probs labels) cluster_ids c)) := by
  have e1 : maskSel (probs.map (fun p => p.2)) labels = .ok (candCol probs labels) := by
    rw [maskSel_ok _ labels (by simpa using hpl)]
    rfl
  have e2 := maskSel_eq_selectWhere (candCol probs labels) cluster_ids c
    (by
      unfold candCol
      rw [maskZip_length labels (probs.map (fun p => p.2)) (by simpa using hpl)]
      exact hcl)
  simp [aggOne, e1, e2]

/-- The whole scoring loop succeeds when the masks line up. -/
theorem aggMany_ok (cluster_ids : List ℤ) (probs : List (ℚ × ℚ)) (labels : List Bool)
    (st : String) (hpl : probs.length = labels.length)
    (hcl : countTrue labels = cluster_ids.length) :
    ∀ cs : List ℤ, aggMany cluster_ids probs labels st cs =
      .ok (cs.map (fun c => aggScore st (selectWhere (candCol probs labels) cluster_ids c)))
  | [] => rfl
  | c :: cs => by
    have h1 := aggOne_ok cluster_ids probs labels st c hpl hcl
    have ih := aggMany_ok cluster_ids probs labels st hpl hcl cs
    simp [aggMany, h1, ih]

/-- The scoring loop raises on its first cluster when the label vector is
longer than the candidate set. -/
theorem aggMany_err_head (cluster_ids : List ℤ) (probs : List (ℚ × ℚ))
    (labels : List Bool) (st : String) (c : ℤ) (cs : List ℤ)
    (hpl : probs.length = labels.length)
    (hcl : countTrue labels ≠ cluster_ids.length) :
    aggMany cluster_ids probs labels st (c :: cs) = .error maskErr := by
  have e1 : maskSel (probs.map (fun p => p.2)) labels = .ok (candCol probs labels) := by
    rw [maskSel_ok _ labels (by simpa using hpl)]
    rfl
  have e2 : maskSel (candCol probs labels) (cluster_ids.map (fun x => decide (x = c))) =
      .error maskErr := by
    apply maskSel_err
    unfold candCol
    rw [maskZip_length labels (probs.map (fun p => p.2)) (by simpa using hpl)]
    simpa using hcl
  simp [aggMany, aggOne, e1, e2]

/-- The relabelling loop preserves the length of the label vector. -/
theorem foldl_zipWith_length (ci : List ℤ) :
    ∀ (L : List (ℕ × ℕ)) (acc : List ℤ), acc.length = ci.length →
      (L.foldl (fun acc p =>
        List.zipWith (fun a c => if c = (p.2 : ℤ) then (p.1 : ℤ) else a) acc ci) acc).length =
        ci.length
  | [], _, h => h
  | p :: L2, acc, h => by
    apply foldl_zipWith_length ci L2
    rw [List.length_zipWith, h]
    simp

/-- `sorted_ids` has one entry per entry of `cluster_ids`. -/
theorem applyRelabel_length (co : List ℕ) (ci : List ℤ) :
    (applyRelabel co ci).length = ci.length := by
  unfold applyRelabel
  exact foldl_zipWith_length ci co.enum _ (by simp)

/-- Claim C9: `cluster_atoms_louvain` selects candidates with `p > threshold`
but removes graph nodes only when `p < threshold`.  When no atom sits exactly
at the threshold, the clustered node set equals the candidate set and the
pipeline is length-consistent; when some atom sits exactly at the threshold,
the label vector is strictly longer than the candidate set and the call is
malformed (the first mask inside the ranking step raises). -/
theorem louvain_threshold_boundary
    (lv : List ℕ → List (List ℕ)) (all_coords : List Point)
    (probs : List (ℚ × ℚ)) (t : ℚ) (st : String)
    (hlen : probs.length = all_coords.length)
    (hpart : ∀ x, x ∈ (lv (keptNodes probs t)).flatten ↔ x ∈ keptNodes probs t) :
    ((∀ pr ∈ probs, pr.2 ≠ t) →
      keptNodes probs t =
        (List.range probs.length).filter (fun i => decide ((probs.getD i (0, 0)).2 > t)) ∧
      (louvainClusterIds (lv (keptNodes probs t))).length =
        countTrue (probs.map (fun p => decide (p.2 > t))) ∧
      ∃ b s a, cluster_atoms_louvain lv all_coords probs t st = .ok (.clustered b s a) ∧
        s.length = countTrue (probs.map (fun p => decide (p.2 > t))) ∧
        a.length = probs.length) ∧
    ((∃ pr ∈ probs, pr.2 = t) →
      countTrue (probs.map (fun p => decide (p.2 > t))) <
        (louvainClusterIds (lv (keptNodes probs t))).length ∧
      cluster_atoms_louvain lv all_coords probs t st = .error maskErr) := by
  have hpl : probs.length = (probs.map (fun p => decide (p.2 > t))).length :=
    (List.length_map _ _).symm
  have hkeys := dictKeys_eq_kept lv probs t hpart
  have hcidlen : (louvainClusterIds (lv (keptNodes probs t))).length =
      (keptNodes probs t).length := by
    unfold louvainClusterIds
    rw [List.length_map, hkeys]
  have hkept_count : (keptNodes probs t).length =
      probs.countP (fun pr => decide (¬ (pr.2 < t))) := by
    unfold keptNodes
    exact length_filter_range_getD probs (0, 0) (fun pr => decide (¬ (pr.2 < t)))
  have hcand_count : countTrue (probs.map (fun p => decide (p.2 > t))) =
      probs.countP (fun p => decide (p.2 > t)) := countTrue_map _ _
  have hnonneg : ∀ x ∈ louvainClusterIds (lv (keptNodes probs t)), 0 ≤ x := by
    intro x hx
    unfold louvainClusterIds at hx
    obtain ⟨k, _, rfl⟩ := List.mem_map.mp hx
    exact Int.natCast_nonneg _
  have hmaskc : maskSel all_coords (probs.map (fun p => decide (p.2 > t))) =
      .ok (((probs.map (fun p => decide (p.2 > t))).zip all_coords).filterMap
        (fun p => if p.1 then some p.2 else none)) :=
    maskSel_ok _ _ (by rw [List.length_map, ← hlen])
  constructor
  · intro hne
    have hkc : keptNodes probs t =
        (List.range probs.length).filter (fun i => decide ((probs.getD i (0, 0)).2 > t)) := by
      unfold keptNodes
      apply List.filter_congr
      intro i hi
      have hilt : i < probs.length := List.mem_range.mp hi
      have hmem : probs.getD i (0, 0) ∈ probs := by
        rw [List.getD_eq_getElem probs (0, 0) hilt]
        exact List.getElem_mem hilt
      have hneq := hne _ hmem
      apply decide_eq_decide.mpr
      constructor
      · intro h
        exact lt_of_le_of_ne (not_lt.mp h) (Ne.symm hneq)
      · intro h
        exact not_lt.mpr (le_of_lt h)
    have hcount_eq : probs.countP (fun pr => decide (¬ (pr.2 < t))) =
        probs.countP (fun pr => decide (pr.2 > t)) := by
      rw [List.countP_eq_length_filter, List.countP_eq_length_filter]
      congr 1
      apply List.filter_congr
      intro a ha
      have hneq := hne _ ha
      apply decide_eq_decide.mpr
      constructor
      · intro h
        exact lt_of_le_of_ne (not_lt.mp h) (Ne.symm hneq)
      · intro h
        exact not_lt.mpr (le_of_lt h)
    have hseq : countTrue (probs.map (fun p => decide (p.2 > t))) =
        (louvainClusterIds (lv (keptNodes probs t))).length := by
      rw [hcand_count, hcidlen, hkept_count, hcount_eq]
    have hagg := aggMany_ok (louvainClusterIds (lv (keptNodes probs t))) probs
      (probs.map (fun p => decide (p.2 > t))) st hpl hseq
      (((uniqueInts (louvainClusterIds (lv (keptNodes probs t)))).filter (fun c => 0 ≤ c)))
    have hsc : sort_clusters (louvainClusterIds (lv (keptNodes probs t))) probs
        (probs.map (fun p => decide (p.2 > t))) st =
        .ok (applyRelabel
          (argsortQ
            (((uniqueInts (louvainClusterIds (lv (keptNodes probs t)))).filter
              (fun c => 0 ≤ c)).map
              (fun c => aggScore st (selectWhere
                (candCol probs (probs.map (fun p => decide (p.2 > t))))
                (louvainClusterIds (lv (keptNodes probs t))) c))))
          (louvainClusterIds (lv (keptNodes probs t)))) := by
      unfold sort_clusters clusterAggScores
      rw [hagg]
    have hslen : (applyRelabel
        (argsortQ
          (((uniqueInts (louvainClusterIds (lv (keptNodes probs t)))).filter
            (fun c => 0 ≤ c)).map
            (fun c => aggScore st (selectWhere
              (candCol probs (probs.map (fun p => decide (p.2 > t))))
              (louvainClusterIds (lv (keptNodes probs t))) c))))
        (louvainClusterIds (lv (keptNodes probs t)))).length =
        (louvainClusterIds (lv (keptNodes probs t))).length :=
      applyRelabel_length _ _
    have hassign := (by
      unfold assignAtMask
      rw [if_pos (by rw [hslen, hseq])] :
      assignAtMask (probs.map (fun p => decide (p.2 > t)))
        (applyRelabel
          (argsortQ
            (((uniqueInts (louvainClusterIds (lv (keptNodes probs t)))).filter
              (fun c => 0 ≤ c)).map
              (fun c => aggScore st (selectWhere
                (candCol probs (probs.map (fun p => decide (p.2 > t))))
                (louvainClusterIds (lv (keptNodes probs t))) c))))
          (louvainClusterIds (lv (keptNodes probs t)))) =
        .ok (assignGo (probs.map (fun p => decide (p.2 > t)))
          (applyRelabel
            (argsortQ
              (((uniqueInts (louvainClusterIds (lv (keptNodes probs t)))).filter
                (fun c => 0 ≤ c)).map
                (fun c => aggScore st (selectWhere
                  (candCol probs (probs.map (fun p => decide (p.2 > t))))
                  (louvainClusterIds (lv (keptNodes probs t))) c))))
            (louvainClusterIds (lv (keptNodes probs t))))))
    refine ⟨hkc, hseq.symm, ?_⟩
    unfold cluster_atoms_louvain
    simp only [hmaskc, hsc, hassign]
    refine ⟨_, _, _, rfl, ?_, ?_⟩
    · rw [hslen]
      exact hseq.symm
    · rw [assignGo_length, List.length_map]
  · intro heq
    obtain ⟨pr, hpr, hprt⟩ := heq
    have hlt : countTrue (probs.map (fun p => decide (p.2 > t))) <
        (louvainClusterIds (lv (keptNodes probs t))).length := by
      rw [hcand_count, hcidlen, hkept_count]
      apply countP_lt_countP
      · intro a _ h
        rw [decide_eq_true_eq] at h ⊢
        exact not_lt.mpr (le_of_lt h)
      · refine ⟨pr, hpr, ?_, ?_⟩
        · rw [decide_eq_true_eq, hprt]
          exact lt_irrefl t
        · rw [decide_eq_false_iff_not, hprt]
          exact lt_irrefl t
    have hne_nil : louvainClusterIds (lv (keptNodes probs t)) ≠ [] := by
      intro h
      rw [h] at hlt
      simp at hlt
    obtain ⟨x, hx⟩ := List.exists_mem_of_ne_nil _ hne_nil
    have hxf : x ∈ (uniqueInts (louvainClusterIds (lv (keptNodes probs t)))).filter
        (fun c => 0 ≤ c) :=
      List.mem_filter.mpr ⟨(uniqueInts_mem _ _).mpr hx, by simpa using hnonneg x hx⟩
    obtain ⟨c, cs, hcons⟩ := List.exists_cons_of_ne_nil (List.ne_nil_of_mem hxf)
    have herr : clusterAggScores (louvainClusterIds (lv (keptNodes probs t))) probs
        (probs.map (fun p => decide (p.2 > t))) st = .error maskErr := by
      unfold clusterAggScores
      rw [hcons]
      exact aggMany_err_head _ probs _ st c cs hpl (Nat.ne_of_lt hlt)
    have hsc : sort_clusters (louvainClusterIds (lv (keptNodes probs t))) probs
        (probs.map (fun p => decide (p.2 > t))) st = .error maskErr := by
      unfold sort_clusters
      rw [herr]
    refine ⟨hlt, ?_⟩
    unfold cluster_atoms_louvain
    simp only [hmaskc, hsc]

/-- Witness for C9: an atom exactly at the threshold makes the Louvain
pipeline malformed. -/
theorem louvain_threshold_boundary_witness :
    countTrue ([((1 : ℚ)/2, (1 : ℚ)/2), ((0 : ℚ), (1 : ℚ))].map
        (fun p => decide (p.2 > (1/2 : ℚ)))) <
      (louvainClusterIds ((fun ks => [ks])
        (keptNodes [((1 : ℚ)/2, (1 : ℚ)/2), ((0 : ℚ), (1 : ℚ))] (1/2)))).length ∧
    cluster_atoms_louvain (fun ks => [ks]) [((0 : ℚ), 0, 0), ((1 : ℚ), 0, 0)]
      [((1 : ℚ)/2, (1 : ℚ)/2), ((0 : ℚ), (1 : ℚ))] (1/2) "mean" = .error maskErr :=
  (louvain_threshold_boundary (fun ks => [ks]) [((0 : ℚ), 0, 0), ((1 : ℚ), 0, 0)]
    [((1 : ℚ)/2, (1 : ℚ)/2), ((0 : ℚ), (1 : ℚ))] (1/2) "mean" rfl
    (fun x => by simp)).2 ⟨((1 : ℚ)/2, (1 : ℚ)/2), by simp, rfl⟩

/-- `np.argsort` output is a permutation of the positions. -/
theorem argsortQ_perm (l : List ℚ) : (argsortQ l).Perm (List.range l.length) :=
  List.perm_insertionSort _ _

/-- `np.argsort` output has no duplicate positions. -/
theorem argsortQ_nodup (l : List ℚ) : (argsortQ l).Nodup :=
  (argsortQ_perm l).nodup_iff.mpr (List.nodup_range _)

/-- `np.argsort` output is sorted by value. -/
theorem argsortQ_sorted (l : List ℚ) :
    List.Sorted (argRel (fun i => l.getD i 0)) (argsortQ l) :=
  List.sorted_insertionSort _ _

/-- The scores read along the argsort are ascending. -/
theorem argsortQ_scores_sorted (l : List ℚ) :
    List.Sorted (fun a b => a ≤ b) ((argsortQ l).map (fun o => l.getD o 0)) := by
  apply List.pairwise_map.mpr
  exact (argsortQ_sorted l).imp (fun hab => hab)

/-- On a duplicate-free list, mapping every element to its index enumerates
the positions. -/
theorem map_indexOf_self {α : Type} [DecidableEq α] (l : List α) (h : l.Nodup) :
    l.map (fun a => l.indexOf a) = List.range l.length := by
  apply List.ext_getElem (by simp)
  intro i h1 h2
  rw [List.getElem_map, List.getElem_range]
  exact List.indexOf_getElem h i _

/-- Taking the index of each of `0..k-1` in a permutation of `0..k-1` again
yields a permutation of `0..k-1`. -/
theorem indexOf_map_range_perm (co : List ℕ) (k : ℕ) (hnd : co.Nodup)
    (hperm : co.Perm (List.range k)) :
    ((List.range k).map (fun j => co.indexOf j)).Perm (List.range k) := by
  have h1 : ((List.range k).map (fun j => co.indexOf j)).Perm
      (co.map (fun j => co.indexOf j)) := (hperm.symm).map _
  have h2 : co.map (fun j => co.indexOf j) = List.range co.length :=
    map_indexOf_self co hnd
  have h3 : co.length = k := hperm.length_eq.trans (List.length_range k)
  rw [h2, h3] at h1
  exact h1

/-- Pointwise description of the relabelling fold: the last processed pair
whose old label matches wins, otherwise the accumulator entry remains. -/
theorem relabel_foldl_getD (ci : List ℤ) (i : ℕ) (hi : i < ci.length) :
    ∀ (L : List (ℕ × ℕ)) (acc : List ℤ), acc.length = ci.length →
      ((L.foldl (fun acc p =>
        List.zipWith (fun a c => if c = (p.2 : ℤ) then (p.1 : ℤ) else a) acc ci)
          acc).getD i (-1)) =
      (match L.reverse.find? (fun p => decide (ci.getD i (-1) = (p.2 : ℤ))) with
        | some p => (p.1 : ℤ)
        | none => acc.getD i (-1))
  | [], acc, h => by simp
  | p :: L2, acc, h => by
    have hstep_len :
        (List.zipWith (fun a c => if c = (p.2 : ℤ) then (p.1 : ℤ) else a) acc ci).length =
          ci.length := by
      rw [List.length_zipWith, h]
      simp
    have ih := relabel_foldl_getD ci i hi L2 _ hstep_len
    rw [List.foldl_cons, ih, List.reverse_cons, List.find?_append]
    cases hf : L2.reverse.find? (fun p => decide (ci.getD i (-1) = (p.2 : ℤ))) with
    | some q => rfl
    | none =>
      simp only [Option.none_or]
      have hzip :
          (List.zipWith (fun a c => if c = (p.2 : ℤ) then (p.1 : ℤ) else a) acc ci).getD i
            (-1) =
          (if ci.getD i (-1) = (p.2 : ℤ) then (p.1 : ℤ) else acc.getD i (-1)) := by
        rw [List.getD_eq_getElem _ _ (by rw [hstep_len]; exact hi), List.getElem_zipWith,
          List.getD_eq_getElem acc _ (by rw [h]; exact hi), List.getD_eq_getElem ci _ hi]
      rw [hzip]
      by_cases hc : ci.getD i (-1) = (p.2 : ℤ)
      · rw [if_pos hc]
        rw [List.getD_eq_getElem?_getD] at hc
        simp [List.find?, hc]
      · rw [if_neg hc]
        rw [List.getD_eq_getElem?_getD] at hc
        simp [List.find?, hc]

/-- Pointwise description of the relabelling loop of `sort_clusters`: each
position receives the rank of its old cluster label. -/
theorem applyRelabel_getD (co : List ℕ) (ci : List ℤ) (hnd : co.Nodup) (i : ℕ) :
    (applyRelabel co ci).getD i (-1) = rankOf co (ci.getD i (-1)) := by
  by_cases hi : i < ci.length
  · unfold applyRelabel
    rw [relabel_foldl_getD ci i hi co.enum _ (by simp)]
    cases hf : co.enum.reverse.find? (fun p => decide (ci.getD i (-1) = (p.2 : ℤ))) with
    | none =>
      have hnone : ∀ p ∈ co.enum.reverse, ¬ (ci.getD i (-1) = (p.2 : ℤ)) := by
        intro p hp
        have := List.find?_eq_none.mp hf p hp
        simpa using this
      have hm : (ci.map (fun _ => (-1 : ℤ))).getD i (-1) = -1 :=
        getD_map_lt (fun _ => (-1 : ℤ)) ci i (-1) 0 hi
      have hcond : ¬ (0 ≤ ci.getD i (-1) ∧ (ci.getD i (-1)).toNat ∈ co) := by
        rintro ⟨hx0, hxm⟩
        obtain ⟨n, hn, hco⟩ := List.mem_iff_getElem.mp hxm
        have henum : (n, (ci.getD i (-1)).toNat) ∈ co.enum := by
          rw [List.mk_mem_enum_iff_getElem?, List.getElem?_eq_getElem hn, hco]
        exact hnone (n, (ci.getD i (-1)).toNat) (List.mem_reverse.mpr henum)
          (Int.toNat_of_nonneg hx0).symm
      rw [hm]
      unfold rankOf
      rw [if_neg hcond]
    | some q =>
      have hq : ci.getD i (-1) = (q.2 : ℤ) := by
        have := List.find?_some hf
        simpa using this
      have hqmem : q ∈ co.enum := List.mem_reverse.mp (List.mem_of_find?_eq_some hf)
      have hget : co[q.1]? = some q.2 := List.mem_enum_iff_getElem?.mp hqmem
      obtain ⟨hq1, hco⟩ := List.getElem?_eq_some.mp hget
      have hmem2 : (ci.getD i (-1)).toNat ∈ co := by
        rw [hq, Int.toNat_natCast, ← hco]
        exact List.getElem_mem hq1
      have hnn : 0 ≤ ci.getD i (-1) := by
        rw [hq]
        exact Int.natCast_nonneg _
      unfold rankOf
      rw [if_pos ⟨hnn, hmem2⟩]
      have htn : (ci.getD i (-1)).toNat = q.2 := by
        rw [hq]
        exact Int.toNat_natCast _
      rw [htn, ← hco, List.indexOf_getElem hnd q.1 hq1]
  · have hl : (applyRelabel co ci).getD i (-1) = -1 :=
      List.getD_eq_default _ _ (by rw [applyRelabel_length]; omega)
    have hr : ci.getD i (-1) = -1 := List.getD_eq_default _ _ (by omega)
    rw [hl, hr]
    unfold rankOf
    rw [if_neg]
    rintro ⟨hx0, _⟩
    omega

/-- The non-negative distinct labels of a `{-1} ∪ {0..k-1}`-valued label
vector that attains every value below `k` are exactly `0..k-1`. -/
theorem nonneg_unique_eq_range (cluster_ids : List ℤ) (k : ℕ)
    (hids : ∀ x ∈ cluster_ids, x = -1 ∨ ∃ j : ℕ, j < k ∧ x = (j : ℤ))
    (hall : ∀ j : ℕ, j < k → (j : ℤ) ∈ cluster_ids) :
    (uniqueInts cluster_ids).filter (fun c => 0 ≤ c) =
      (List.range k).map (fun j : ℕ => (j : ℤ)) := by
  apply sorted_lt_eq_of_mem_iff
  · exact (uniqueInts_sorted _).filter _
  · have hp : List.Pairwise (fun a b : ℕ => (a : ℤ) < (b : ℤ)) (List.range k) :=
      (List.pairwise_lt_range k).imp (fun hab => by exact_mod_cast hab)
    exact List.pairwise_map.mpr hp
  · intro x
    simp only [List.mem_filter, uniqueInts_mem, List.mem_map, List.mem_range]
    constructor
    · rintro ⟨hmem, hx0⟩
      rcases hids x hmem with rfl | ⟨j, hj, rfl⟩
      · simp at hx0
      · exact ⟨j, hj, rfl⟩
    · rintro ⟨j, hj, rfl⟩
      exact ⟨hall j hj, by simp⟩

/-- The `top_n` selection takes the largest distinct labels. -/
theorem topIds_high_end (s : List ℤ) (n : ℕ) :
    ∀ a ∈ topIds s n, ∀ b ∈ uniqueInts s, b ∉ topIds s n → b < a := by
  intro a ha b hb hbn
  have hrev : List.Pairwise (fun x y => y < x) (uniqueInts s).reverse :=
    List.pairwise_reverse.mpr ((uniqueInts_sorted s).imp (fun hab => hab))
  have hsplit := List.take_append_drop n (uniqueInts s).reverse
  have hpw : List.Pairwise (fun x y => y < x)
      ((uniqueInts s).reverse.take n ++ (uniqueInts s).reverse.drop n) := by
    rw [hsplit]
    exact hrev
  have hrel := (List.pairwise_append.mp hpw).2.2
  have hbrev : b ∈ (uniqueInts s).reverse := List.mem_reverse.mpr hb
  rw [← hsplit] at hbrev
  rcases List.mem_append.mp hbrev with hmem | hmem
  · exact absurd hmem hbn
  · exact hrel a ha b hmem

/-- Claim C3 (amended: the aggregate confidences are non-decreasing, not
strictly increasing, in rank — `np.argsort` breaks ties arbitrarily): for a
clustering with non-noise labels exactly `0..k-1`, `sort_clusters` succeeds;
the k ranks are a permutation of `0..k-1`; the aggregate confidence read in
rank order is (weakly) ascending, so rank 0 carries the lowest and rank `k-1`
the highest score; noise positions keep `-1`; the `top_n` selection reads the
largest labels (the high end of the ascending order); and a selected region
label is never `-1`. -/
theorem rank_permutation_monotone
    (cluster_ids : List ℤ) (probs : List (ℚ × ℚ)) (labels : List Bool)
    (st : String) (k : ℕ)
    (hpl : probs.length = labels.length)
    (hcl : countTrue labels = cluster_ids.length)
    (hids : ∀ x ∈ cluster_ids, x = -1 ∨ ∃ j : ℕ, j < k ∧ x = (j : ℤ))
    (hall : ∀ j : ℕ, j < k → (j : ℤ) ∈ cluster_ids) :
    ∃ cps,
      clusterAggScores cluster_ids probs labels st = .ok cps ∧
      cps = ((uniqueInts cluster_ids).filter (fun c => 0 ≤ c)).map
        (fun c => aggScore st (selectWhere (candCol probs labels) cluster_ids c)) ∧
      cps.length = k ∧
      sort_clusters cluster_ids probs labels st =
        .ok (applyRelabel (argsortQ cps) cluster_ids) ∧
      ((List.range k).map (fun j => (argsortQ cps).indexOf j)).Perm (List.range k) ∧
      List.Sorted (fun a b => a ≤ b) ((argsortQ cps).map (fun o => cps.getD o 0)) ∧
      (∀ i : ℕ, cluster_ids.getD i (-1) = -1 →
        (applyRelabel (argsortQ cps) cluster_ids).getD i (-1) = -1) ∧
      (∀ i j : ℕ, j < k → cluster_ids.getD i (-1) = (j : ℤ) →
        (applyRelabel (argsortQ cps) cluster_ids).getD i (-1) =
          ((argsortQ cps).indexOf j : ℤ)) ∧
      (∀ (s : List ℤ) (n : ℕ), ∀ a ∈ topIds s n, ∀ b ∈ uniqueInts s,
        b ∉ topIds s n → b < a) ∧
      (∀ (s : List ℤ) (n : ℕ) (c : ℤ), c ∈ (topIds s n).filter (fun c => 0 ≤ c) →
        0 ≤ c) := by
  have hNN := nonneg_unique_eq_range cluster_ids k hids hall
  have hagg := aggMany_ok cluster_ids probs labels st hpl hcl
    ((uniqueInts cluster_ids).filter (fun c => 0 ≤ c))
  have hlen : (((uniqueInts cluster_ids).filter (fun c => 0 ≤ c)).map
      (fun c => aggScore st (selectWhere (candCol probs labels) cluster_ids c))).length =
      k := by
    rw [List.length_map, hNN, List.length_map, List.length_range]
  have hperm := argsortQ_perm (((uniqueInts cluster_ids).filter (fun c => 0 ≤ c)).map
    (fun c => aggScore st (selectWhere (candCol probs labels) cluster_ids c)))
  rw [hlen] at hperm
  refine ⟨_, hagg, rfl, hlen, ?_, ?_, ?_, ?_, ?_, ?_, ?_⟩
  · unfold sort_clusters clusterAggScores
    rw [hagg]
  · exact indexOf_map_range_perm _ k (argsortQ_nodup _) hperm
  · exact argsortQ_scores_sorted _
  · intro i hnoise
    rw [applyRelabel_getD _ _ (argsortQ_nodup _) i, hnoise]
    unfold rankOf
    rw [if_neg]
    rintro ⟨hx0, _⟩
    omega
  · intro i j hj hval
    rw [applyRelabel_getD _ _ (argsortQ_nodup _) i, hval]
    unfold rankOf
    have hjmem : ((j : ℤ)).toNat ∈ argsortQ (((uniqueInts cluster_ids).filter
        (fun c => 0 ≤ c)).map
        (fun c => aggScore st (selectWhere (candCol probs labels) cluster_ids c))) := by
      rw [Int.toNat_natCast, hperm.mem_iff]
      exact List.mem_range.mpr hj
    rw [if_pos ⟨Int.natCast_nonneg _, hjmem⟩, Int.toNat_natCast]
  · exact topIds_high_end
  · intro s n c hc
    simpa using (List.mem_filter.mp hc).2

/-- Claim C3 (counterexample to strictness): two clusters with identical mean
confidence `1/2` receive the distinct ranks `0` and `1`, so the aggregate
confidence is NOT strictly increasing in rank. -/
theorem rank_strict_confidence_cex :
    clusterAggScores [0, 1] [((1 : ℚ)/2, (1 : ℚ)/2), ((1 : ℚ)/2, (1 : ℚ)/2)]
      [true, true] "mean" = .ok [(1 : ℚ)/2, (1 : ℚ)/2] ∧
    sort_clusters [0, 1] [((1 : ℚ)/2, (1 : ℚ)/2), ((1 : ℚ)/2, (1 : ℚ)/2)]
      [true, true] "mean" = .ok [0, 1] ∧
    ¬ List.Sorted (fun a b => a < b)
      ((argsortQ [(1 : ℚ)/2, (1 : ℚ)/2]).map
        (fun o => ([(1 : ℚ)/2, (1 : ℚ)/2]).getD o 0)) := by
  refine ⟨by with_unfolding_all decide, by with_unfolding_all decide, ?_⟩
  with_unfolding_all decide

/-- Witness for C3 at a concrete two-cluster input with distinct scores. -/
theorem rank_permutation_monotone_witness :
    ∃ cps,
      clusterAggScores [0, 1] [((1 : ℚ)/2, (1 : ℚ)/2), ((1 : ℚ)/4, (3 : ℚ)/4)]
        [true, true] "mean" = .ok cps ∧
      cps = ((uniqueInts [0, 1]).filter (fun c => 0 ≤ c)).map
        (fun c => aggScore "mean" (selectWhere
          (candCol [((1 : ℚ)/2, (1 : ℚ)/2), ((1 : ℚ)/4, (3 : ℚ)/4)] [true, true])
          [0, 1] c)) ∧
      cps.length = 2 ∧
      sort_clusters [0, 1] [((1 : ℚ)/2, (1 : ℚ)/2), ((1 : ℚ)/4, (3 : ℚ)/4)]
        [true, true] "mean" = .ok (applyRelabel (argsortQ cps) [0, 1]) ∧
      ((List.range 2).map (fun j => (argsortQ cps).indexOf j)).Perm (List.range 2) ∧
      List.Sorted (fun a b => a ≤ b) ((argsortQ cps).map (fun o => cps.getD o 0)) ∧
      (∀ i : ℕ, ([0, 1] : List ℤ).getD i (-1) = -1 →
        (applyRelabel (argsortQ cps) [0, 1]).getD i (-1) = -1) ∧
      (∀ i j : ℕ, j < 2 → ([0, 1] : List ℤ).getD i (-1) = (j : ℤ) →
        (applyRelabel (argsortQ cps) [0, 1]).getD i (-1) =
          ((argsortQ cps).indexOf j : ℤ)) ∧
      (∀ (s : List ℤ) (n : ℕ), ∀ a ∈ topIds s n, ∀ b ∈ uniqueInts s,
        b ∉ topIds s n → b < a) ∧
      (∀ (s : List ℤ) (n : ℕ) (c : ℤ), c ∈ (topIds s n).filter (fun c => 0 ≤ c) →
        0 ≤ c) :=
  rank_permutation_monotone [0, 1] [((1 : ℚ)/2, (1 : ℚ)/2), ((1 : ℚ)/4, (3 : ℚ)/4)]
    [true, true] "mean" 2 rfl (by decide)
    (by
      intro x hx
      simp only [List.mem_cons, List.not_mem_nil, or_false] at hx
      rcases hx with rfl | rfl
      · exact Or.inr ⟨0, by omega, rfl⟩
      · exact Or.inr ⟨1, by omega, rfl⟩)
    (by
      intro j hj
      interval_cases j
      · simp
      · simp)

/-- No candidate atoms when every probability is at most the threshold. -/
theorem countTrue_zero_of_le (probs : List (ℚ × ℚ)) (t : ℚ)
    (hle : ∀ p ∈ probs, p.2 ≤ t) :
    countTrue (probs.map (fun p => decide (p.2 > t))) = 0 := by
  rw [countTrue_map]
  apply List.countP_eq_zero.mpr
  intro a ha
  simpa using not_lt.mpr (hle a ha)

/-- `cluster_atoms` returns the sentinel on an empty candidate set. -/
theorem cluster_atoms_noRegions (f : List Point → List ℤ) (coords : List Point)
    (probs : List (ℚ × ℚ)) (t : ℚ) (st : String)
    (h : countTrue (probs.map (fun p => decide (p.2 > t))) = 0) :
    cluster_atoms f coords probs t st = .ok .noRegions := by
  unfold cluster_atoms
  rw [if_pos h]

/-- `cluster_atoms_DBSCAN` returns the sentinel on an empty candidate set. -/
theorem cluster_atoms_DBSCAN_noRegions (f : List Point → List ℤ) (coords : List Point)
    (probs : List (ℚ × ℚ)) (t : ℚ) (st : String)
    (h : countTrue (probs.map (fun p => decide (p.2 > t))) = 0) :
    cluster_atoms_DBSCAN f coords probs t st = .ok .noRegions := by
  unfold cluster_atoms_DBSCAN
  rw [if_pos h]

/-- `cluster_atoms_linkage` returns the sentinel on an empty candidate set. -/
theorem cluster_atoms_linkage_noRegions (f : List Point → List ℤ) (coords : List Point)
    (probs : List (ℚ × ℚ)) (t : ℚ) (st : String)
    (h : countTrue (probs.map (fun p => decide (p.2 > t))) = 0) :
    cluster_atoms_linkage f coords probs t st = .ok .noRegions := by
  unfold cluster_atoms_linkage
  rw [if_pos h]

/-- Scoring the sentinel yields the all-NaN record (hull centroid mode). -/
theorem multisite_post_noRegions (O : GeomOracle) (lig : List (List Point))
    (mass : List (List ℚ)) (probs : List (ℚ × ℚ)) (sites : List (List Point))
    (tnp : ℕ) :
    multisite_post O .noRegions none lig mass probs sites tnp "hull" =
      .ok (nanMetrics sites.length) := rfl

/-- `np.unique` of the empty label vector. -/
theorem uniqueInts_nil : uniqueInts ([] : List ℤ) = [] := by
  unfold uniqueInts
  rw [List.toFinset_nil, Finset.sort_empty]

/-- `np.unique` of the empty key list. -/
theorem uniqueNats_nil : uniqueNats ([] : List ℕ) = [] := by
  unfold uniqueNats
  rw [List.toFinset_nil, Finset.sort_empty]

/-- Scoring a clustered result with no labels at all (the Louvain outcome on
an empty graph) also yields the all-NaN record in hull centroid mode. -/
theorem multisite_post_sorted_nil (O : GeomOracle) (b : List Point) (a : List ℤ)
    (lig : List (List Point)) (mass : List (List ℚ)) (probs : List (ℚ × ℚ))
    (sites : List (List Point)) (tnp : ℕ) :
    multisite_post O (.clustered b [] a) none lig mass probs sites tnp "hull" =
      .ok (nanMetrics sites.length) := by
  have htop : topIds ([] : List ℤ) (sites.length + tnp) = [] := by
    unfold topIds
    rw [uniqueInts_nil]
    simp
  have hfc : hulls_from_clusters O (some b) (some ([] : List ℤ)) sites.length tnp =
      ([], [], []) := by
    simp [hulls_from_clusters, htop]
  simp [multisite_post, predicted_centers, resParts, hfc]

/-- `multisite_metrics` without a surface mask is clustering followed by
`multisite_post`. -/
theorem multisite_metrics_of_dispatch (B : Backends) (O : GeomOracle)
    (coords : List Point) (lig : List (List Point)) (mass : List (List ℚ))
    (probs : List (ℚ × ℚ)) (sites : List (List Point)) (tnp : ℕ) (t : ℚ)
    (m st ct : String) (res : ClusterResult)
    (hd : clusterDispatch B m coords probs t st = .ok res) :
    multisite_metrics B O coords lig mass probs sites tnp t m st ct none =
      multisite_post O res none lig mass probs sites tnp ct := by
  unfold multisite_metrics
  rw [hd]

/-- Claim C1 (amended): with the default hull centroid mode, the mean-shift,
DBSCAN and linkage strategies return the `(None, None, None)` sentinel on an
empty candidate set and `multisite_metrics` returns four all-NaN arrays of
length `len(site_coords_list)`; the Louvain strategy does NOT return the
sentinel (it returns empty arrays, provided every probability is strictly
below the threshold so that the pruned graph is empty), yet
`multisite_metrics` still returns the same all-NaN arrays. -/
theorem empty_candidates_allNaN
    (B : Backends) (O : GeomOracle) (coords : List Point)
    (lig : List (List Point)) (mass : List (List ℚ)) (probs : List (ℚ × ℚ))
    (sites : List (List Point)) (tnp : ℕ) (t : ℚ) (st : String)
    (hle : ∀ p ∈ probs, p.2 ≤ t) :
    cluster_atoms B.meanshift coords probs t st = .ok .noRegions ∧
    cluster_atoms_DBSCAN B.dbscan coords probs t st = .ok .noRegions ∧
    cluster_atoms_linkage B.linkage coords probs t st = .ok .noRegions ∧
    multisite_metrics B O coords lig mass probs sites tnp t "meanshift" st "hull" none =
      .ok (nanMetrics sites.length) ∧
    multisite_metrics B O coords lig mass probs sites tnp t "dbscan" st "hull" none =
      .ok (nanMetrics sites.length) ∧
    multisite_metrics B O coords lig mass probs sites tnp t "linkage" st "hull" none =
      .ok (nanMetrics sites.length) ∧
    ((∀ p ∈ probs, p.2 < t) → probs.length = coords.length →
      (∀ x, x ∈ (B.louvain (keptNodes probs t)).flatten ↔ x ∈ keptNodes probs t) →
      cluster_atoms_louvain B.louvain coords probs t st ≠ .ok .noRegions ∧
      multisite_metrics B O coords lig mass probs sites tnp t "louvain" st "hull" none =
        .ok (nanMetrics sites.length)) := by
  have h0 := countTrue_zero_of_le probs t hle
  have hms := cluster_atoms_noRegions B.meanshift coords probs t st h0
  have hdb := cluster_atoms_DBSCAN_noRegions B.dbscan coords probs t st h0
  have hlk := cluster_atoms_linkage_noRegions B.linkage coords probs t st h0
  have hdms : clusterDispatch B "meanshift" coords probs t st = .ok .noRegions := by
    unfold clusterDispatch
    rw [if_pos rfl]
    exact hms
  have hddb : clusterDispatch B "dbscan" coords probs t st = .ok .noRegions := by
    unfold clusterDispatch
    rw [if_neg (by decide), if_pos rfl]
    exact hdb
  have hdlk : clusterDispatch B "linkage" coords probs t st = .ok .noRegions := by
    unfold clusterDispatch
    rw [if_neg (by decide), if_neg (by decide), if_neg (by decide), if_pos rfl]
    exact hlk
  refine ⟨hms, hdb, hlk, ?_, ?_, ?_, ?_⟩
  · rw [multisite_metrics_of_dispatch B O coords lig mass probs sites tnp t
      "meanshift" st "hull" .noRegions hdms]
    exact multisite_post_noRegions O lig mass probs sites tnp
  · rw [multisite_metrics_of_dispatch B O coords lig mass probs sites tnp t
      "dbscan" st "hull" .noRegions hddb]
    exact multisite_post_noRegions O lig mass probs sites tnp
  · rw [multisite_metrics_of_dispatch B O coords lig mass probs sites tnp t
      "linkage" st "hull" .noRegions hdlk]
    exact multisite_post_noRegions O lig mass probs sites tnp
  · intro hstrict hlen2 hpart
    have hkept : keptNodes probs t = [] := by
      unfold keptNodes
      apply List.filter_eq_nil_iff.mpr
      intro i hi
      have hilt : i < probs.length := List.mem_range.mp hi
      have hmem : probs.getD i (0, 0) ∈ probs := by
        rw [List.getD_eq_getElem probs (0, 0) hilt]
        exact List.getElem_mem hilt
      simpa using hstrict _ hmem
    have hflat : (B.louvain (keptNodes probs t)).flatten = [] := by
      apply List.eq_nil_iff_forall_not_mem.mpr
      intro x hx
      have := (hpart x).mp hx
      rw [hkept] at this
      simp at this
    have hcid : louvainClusterIds (B.louvain (keptNodes probs t)) = [] := by
      unfold louvainClusterIds
      rw [assignmentPairs_map_fst, hflat, uniqueNats_nil]
      rfl
    have hcas : clusterAggScores ([] : List ℤ) probs
        (probs.map (fun p => decide (p.2 > t))) st = .ok [] := by
      unfold clusterAggScores
      rw [uniqueInts_nil]
      rfl
    have hsc : sort_clusters ([] : List ℤ) probs
        (probs.map (fun p => decide (p.2 > t))) st = .ok [] := by
      unfold sort_clusters
      rw [hcas]
      rfl
    have hassign : assignAtMask (probs.map (fun p => decide (p.2 > t))) ([] : List ℤ) =
        .ok (assignGo (probs.map (fun p => decide (p.2 > t))) []) := by
      unfold assignAtMask
      rw [if_pos (by rw [h0]; rfl)]
    have hmaskc : maskSel coords (probs.map (fun p => decide (p.2 > t))) =
        .ok (((probs.map (fun p => decide (p.2 > t))).zip coords).filterMap
          (fun p => if p.1 then some p.2 else none)) :=
      maskSel_ok _ _ (by rw [List.length_map, ← hlen2])
    have hlouvain : cluster_atoms_louvain B.louvain coords probs t st =
        .ok (.clustered
          (((probs.map (fun p => decide (p.2 > t))).zip coords).filterMap
            (fun p => if p.1 then some p.2 else none))
          []
          (assignGo (probs.map (fun p => decide (p.2 > t))) [])) := by
      unfold cluster_atoms_louvain
      simp only [hmaskc, hcid, hsc, hassign]
    constructor
    · intro hcontra
      rw [hlouvain] at hcontra
      exact ClusterResult.noConfusion (Except.ok.inj hcontra)
    · have hdlv : clusterDispatch B "louvain" coords probs t st =
          .ok (.clustered
            (((probs.map (fun p => decide (p.2 > t))).zip coords).filterMap
              (fun p => if p.1 then some p.2 else none))
            []
            (assignGo (probs.map (fun p => decide (p.2 > t))) [])) := by
        unfold clusterDispatch
        rw [if_neg (by decide), if_neg (by decide), if_pos rfl]
        exact hlouvain
      rw [multisite_metrics_of_dispatch B O coords lig mass probs sites tnp t
        "louvain" st "hull" _ hdlv]
      exact multisite_post_sorted_nil O _ _ lig mass probs sites tnp

/-- Witness for C1 (amended) at a one-atom structure with probability below
the threshold. -/
theorem empty_candidates_allNaN_witness :
    multisite_metrics B0 O0 [((0 : ℚ), 0, 0)] [[((1 : ℚ), 1, 1)]] [[1]]
      [((1 : ℚ), (0 : ℚ))] [[((5 : ℚ), 5, 5)]] 0 (1/2) "meanshift" "mean" "hull" none =
      .ok (nanMetrics 1) ∧
    cluster_atoms_louvain B0.louvain [((0 : ℚ), 0, 0)] [((1 : ℚ), (0 : ℚ))] (1/2) "mean" ≠
      .ok .noRegions ∧
    multisite_metrics B0 O0 [((0 : ℚ), 0, 0)] [[((1 : ℚ), 1, 1)]] [[1]]
      [((1 : ℚ), (0 : ℚ))] [[((5 : ℚ), 5, 5)]] 0 (1/2) "louvain" "mean" "hull" none =
      .ok (nanMetrics 1) := by
  have hk : keptNodes [((1 : ℚ), (0 : ℚ))] (1/2) = [] := by
    with_unfolding_all decide
  have h := empty_candidates_allNaN B0 O0 [((0 : ℚ), 0, 0)] [[((1 : ℚ), 1, 1)]] [[1]]
    [((1 : ℚ), (0 : ℚ))] [[((5 : ℚ), 5, 5)]] 0 (1/2) "mean"
    (by
      intro p hp
      simp only [List.mem_cons, List.not_mem_nil, or_false] at hp
      subst hp
      with_unfolding_all decide)
  have hlv := h.2.2.2.2.2.2
    (by
      intro p hp
      simp only [List.mem_cons, List.not_mem_nil, or_false] at hp
      subst hp
      with_unfolding_all decide)
    rfl
    (by
      intro x
      rw [hk]
      simp [B0])
  exact ⟨h.2.2.2.1, hlv.1, hlv.2⟩

/-- `np.min` of a nonempty row succeeds with the row minimum. -/
theorem npmin_ok (r : List ℚ) (h : r ≠ []) : npmin r = .ok (minD r) := by
  cases r with
  | nil => exact absurd rfl h
  | cons x xs => rfl

/-- `np.min(axis=1)` of a matrix with no zero-width row succeeds with the
row-wise minima. -/
theorem npMinRows_ok : ∀ (M : List (List ℚ)), (∀ r ∈ M, r ≠ []) →
    npMinRows M = .ok (M.map minD)
  | [], _ => rfl
  | r :: rs, h => by
    have h1 := npmin_ok r (h r (List.mem_cons_self r rs))
    have ih := npMinRows_ok rs (fun q hq => h q (List.mem_cons_of_mem _ hq))
    simp [npMinRows, h1, ih]

/-- Claim C2 (amended): in the default configuration, the reported `DCA` row
`i` is the minimum of the `DCA` matrix row over ALL selected predicted
centroids — the minimum over every centroid's closest-ligand-atom distance —
not the entry at the centroid matched by the center-distance argmin.
(Distances squared; `sqrt` is monotone.) -/
theorem DCA_is_row_minimum
    (B : Backends) (O : GeomOracle) (coords : List Point)
    (lig : List (List Point)) (mass : List (List ℚ)) (probs : List (ℚ × ℚ))
    (sites : List (List Point)) (tnp : ℕ) (t : ℚ) (m st : String)
    (res : ClusterResult)
    (hd : clusterDispatch B m coords probs t st = .ok res)
    (hP : (hulls_from_clusters O (resParts res).1 (resParts res).2.1
      sites.length tnp).2.2 ≠ []) :
    ∃ out, multisite_metrics B O coords lig mass probs sites tnp t m st "hull" none =
        .ok out ∧
      out.DCA = (List.range sites.length).map (fun ti =>
        some (minD (((hulls_from_clusters O (resParts res).1 (resParts res).2.1
          sites.length tnp).2.2).map (fun c => DCA_dist c (lig.getD ti []))))) ∧
      ∀ i, i < sites.length → out.DCA.getD i none =
        some (minD (((hulls_from_clusters O (resParts res).1 (resParts res).2.1
          sites.length tnp).2.2).map (fun c => DCA_dist c (lig.getD i [])))) := by
  rw [multisite_metrics_of_dispatch B O coords lig mass probs sites tnp t
    m st "hull" res hd]
  have hlen0 : (hulls_from_clusters O (resParts res).1 (resParts res).2.1
      sites.length tnp).2.2.length ≠ 0 :=
    fun h0 => hP (List.length_eq_zero.mp h0)
  have hmapne : ∀ (g : Point → ℚ),
      (hulls_from_clusters O (resParts res).1 (resParts res).2.1
        sites.length tnp).2.2.map g ≠ [] := by
    intro g hmap
    exact hP (List.map_eq_nil_iff.mp hmap)
  have hlig : npMinRows ((List.range sites.length).map (fun ti =>
      ((hulls_from_clusters O (resParts res).1 (resParts res).2.1
        sites.length tnp).2.2).map
        (fun c => dist2 c ((List.zipWith center_of_mass lig mass).getD ti (0, 0, 0))))) =
      .ok (((List.range sites.length).map (fun ti =>
        ((hulls_from_clusters O (resParts res).1 (resParts res).2.1
          sites.length tnp).2.2).map
          (fun c => dist2 c ((List.zipWith center_of_mass lig mass).getD ti
            (0, 0, 0))))).map minD) := by
    apply npMinRows_ok
    intro r hr
    obtain ⟨ti, _, rfl⟩ := List.mem_map.mp hr
    exact hmapne _
  have hsite : npMinRows (((sites.map O.mkHull).map O.hullCenter).map (fun tc =>
      ((hulls_from_clusters O (resParts res).1 (resParts res).2.1
        sites.length tnp).2.2).map (fun pc => dist2 pc tc))) =
      .ok ((((sites.map O.mkHull).map O.hullCenter).map (fun tc =>
        ((hulls_from_clusters O (resParts res).1 (resParts res).2.1
          sites.length tnp).2.2).map (fun pc => dist2 pc tc))).map minD) := by
    apply npMinRows_ok
    intro r hr
    obtain ⟨tc, _, rfl⟩ := List.mem_map.mp hr
    exact hmapne _
  have hdca : npMinRows ((List.range sites.length).map (fun ti =>
      ((hulls_from_clusters O (resParts res).1 (resParts res).2.1
        sites.length tnp).2.2).map (fun c => DCA_dist c (lig.getD ti [])))) =
      .ok (((List.range sites.length).map (fun ti =>
        ((hulls_from_clusters O (resParts res).1 (resParts res).2.1
          sites.length tnp).2.2).map
          (fun c => DCA_dist c (lig.getD ti [])))).map minD) := by
    apply npMinRows_ok
    intro r hr
    obtain ⟨ti, _, rfl⟩ := List.mem_map.mp hr
    exact hmapne _
  have hcent : predicted_centers O res probs sites.length tnp "hull" =
      .ok (hulls_from_clusters O (resParts res).1 (resParts res).2.1
        sites.length tnp).2.2 := by
    unfold predicted_centers
    rw [if_neg (by decide : ¬ ("hull" ≠ "hull"))]
  have hcc : contact_centers O none sites.length tnp
      (hulls_from_clusters O (resParts res).1 (resParts res).2.1
        sites.length tnp).2.2 =
      (hulls_from_clusters O (resParts res).1 (resParts res).2.1
        sites.length tnp).2.2 := rfl
  unfold multisite_post
  simp only [hcent]
  rw [if_pos hlen0]
  simp only [hcc, hlig, hsite, hdca]
  refine ⟨_, rfl, ?_, ?_⟩
  · simp only [List.map_map]
    rfl
  · intro i hi
    simp only [List.map_map]
    rw [getD_map_lt _ _ i none 0 (by simpa using hi),
      List.getD_eq_getElem _ _ (by simpa using hi), List.getElem_range]
    rfl

/-- Witness for C2 (amended) at the two-region counterexample structure. -/
theorem DCA_is_row_minimum_witness :
    ∃ out, multisite_metrics B1 O0 [(0, 0, 0), (6, 0, 0)] [[(8, 0, 0)]] [[1]]
        [(1/10, 9/10), (1/5, 4/5)]
        [[(2, 1, 1), (2, -1, -1), (0, 1, -1), (0, -1, 1)]] 1 (1/2) "linkage" "mean"
        "hull" none = .ok out ∧
      out.DCA = (List.range ([[((2 : ℚ), 1, 1), (2, -1, -1), (0, 1, -1),
          (0, -1, 1)]] : List (List Point)).length).map (fun ti =>
        some (minD (((hulls_from_clusters O0
          (resParts (.clustered [(0, 0, 0), (6, 0, 0)] [1, 0] [1, 0])).1
          (resParts (.clustered [(0, 0, 0), (6, 0, 0)] [1, 0] [1, 0])).2.1
          ([[((2 : ℚ), 1, 1), (2, -1, -1), (0, 1, -1), (0, -1, 1)]] :
            List (List Point)).length 1).2.2).map
          (fun c => DCA_dist c (([[((8 : ℚ), 0, 0)]] :
            List (List Point)).getD ti []))))) ∧
      ∀ i, i < ([[((2 : ℚ), 1, 1), (2, -1, -1), (0, 1, -1), (0, -1, 1)]] :
          List (List Point)).length →
        out.DCA.getD i none = some (minD (((hulls_from_clusters O0
          (resParts (.clustered [(0, 0, 0), (6, 0, 0)] [1, 0] [1, 0])).1
          (resParts (.clustered [(0, 0, 0), (6, 0, 0)] [1, 0] [1, 0])).2.1
          ([[((2 : ℚ), 1, 1), (2, -1, -1), (0, 1, -1), (0, -1, 1)]] :
            List (List Point)).length 1).2.2).map
          (fun c => DCA_dist c (([[((8 : ℚ), 0, 0)]] :
            List (List Point)).getD i [])))) :=
  DCA_is_row_minimum B1 O0 [(0, 0, 0), (6, 0, 0)] [[(8, 0, 0)]] [[1]]
    [(1/10, 9/10), (1/5, 4/5)] [[(2, 1, 1), (2, -1, -1), (0, 1, -1), (0, -1, 1)]]
    1 (1/2) "linkage" "mean" (.clustered [(0, 0, 0), (6, 0, 0)] [1, 0] [1, 0])
    (by with_unfolding_all decide) (by with_unfolding_all decide)

end GrASP
